import Mathlib

/-!
Verification of the compact Battlesnake board representation and its
two-phase move evaluator (fables-tales/battlesnake-game-types).

The definitions below are a shallow embedding of the Rust sources:

  * src/types.rs                                      (Move, SnakeId, Action)
  * src/compact_representation/core/mod.rs            (Cell, CellIndex)
  * src/compact_representation/core/cell_board/mod.rs (CellBoard, mutators,
    assert_consistency, convert_from_game)
  * src/compact_representation/core/cell_board/eval.rs (generate_state,
    evaluate_moves_with_state)
  * src/compact_representation/core/simulate.rs       (simulate_with_moves)
  * src/compact_representation/core/cell_board/victor_determinable.rs
  * src/compact_representation/standard/mod.rs        (mode check, best board)
  * src/wire_representation/mod.rs                    (as_wrapped_cell_board)

Modelling conventions:
  * machine integers (u8/u16/u32) become Nat; subtraction is Rust's
    saturating_sub (Nat truncated subtraction), u16 saturating_add is min;
  * CellIndex<T> becomes Nat; the const generics BOARD_SIZE / MAX_SNAKES
    become the lengths of the cells / healths lists;
  * the embedding instantiates the Dimensions capability with the Square /
    Custom variants where the stored width equals the actual width, so the
    single field CellBoard.width plays the role of both Self::width() and
    get_actual_width() in the source;
  * Rust loops that may diverge on malformed boards (ring walks) take an
    explicit fuel argument and return Option; none models a panic or
    non-termination, some r models normal termination with value r;
  * in-range array indexing is modelled with List.getD / List.set; every
    scenario exercised by the claims stays in range.
-/

namespace BattlesnakeGT

/-- Direction of a move (src/types.rs, enum Move). -/
inductive Move where
  | left
  | down
  | up
  | right
deriving DecidableEq, Repr

/-- Integer 2-vector (src/types.rs, struct Vector). -/
structure Vector where
  x : Int
  y : Int
deriving DecidableEq, Repr

/-- Position from the wire representation (src/wire_representation/mod.rs). -/
structure Position where
  x : Int
  y : Int
deriving DecidableEq, Repr

/-- Move::to_vector. -/
def Move.to_vector : Move → Vector
  | .left => ⟨-1, 0⟩
  | .right => ⟨1, 0⟩
  | .up => ⟨0, 1⟩
  | .down => ⟨0, -1⟩

/-- Move::as_index (Up 0, Down 1, Left 2, Right 3). -/
def Move.as_index : Move → Nat
  | .up => 0
  | .down => 1
  | .left => 2
  | .right => 3

/-- Position::add_vec. -/
def Position.add_vec (p : Position) (v : Vector) : Position :=
  ⟨p.x + v.x, p.y + v.y⟩

/-- CellIndex::new: flat index y*width+x.  All call sites in the claims feed
in-bounds (hence nonnegative) coordinates, so the Int→Nat cast is exact. -/
def cellIndexNew (pos : Position) (width : Nat) : Nat :=
  (pos.y * (width : Int) + pos.x).toNat

/-- CellIndex::into_position: x = idx % width, y = idx / width. -/
def intoPosition (idx : Nat) (width : Nat) : Position :=
  ⟨((idx % width : Nat) : Int), ((idx / width : Nat) : Int)⟩

/-- The tagged cell kind (core/mod.rs, enum CellFlag). -/
inductive CellFlag where
  | empty
  | snakeHead
  | snakeBodyPiece
  | doubleStackedPiece
  | tripleStackedPiece
  | food
deriving DecidableEq, Repr

/-- The numeric tag of each flag, as assigned by the repr(u8) enum. -/
def CellFlag.toByte : CellFlag → Nat
  | .empty => 0x05
  | .snakeHead => 0x06
  | .snakeBodyPiece => 0x01
  | .doubleStackedPiece => 0x02
  | .tripleStackedPiece => 0x03
  | .food => 0x04

/-- Inverse of CellFlag.toByte; none models the undefined behaviour of
transmuting an invalid byte in Cell::from_u32. -/
def CellFlag.ofByte : Nat → Option CellFlag
  | 0x05 => some .empty
  | 0x06 => some .snakeHead
  | 0x01 => some .snakeBodyPiece
  | 0x02 => some .doubleStackedPiece
  | 0x03 => some .tripleStackedPiece
  | 0x04 => some .food
  | _ => none

/-- One square of the board (core/mod.rs, struct Cell).  SnakeId is a u8 and
CellIndex at most a u16 in the source; the id < 256 / idx < 65536 bounds appear
as hypotheses where they matter (packing). -/
structure Cell where
  flags : CellFlag
  hazard_count : Nat
  id : Nat
  idx : Nat
deriving DecidableEq, Repr

namespace Cell

/-- Cell::empty. -/
def emptyCell : Cell := ⟨.empty, 0, 0, 0⟩

/-- Cell::is_empty. -/
def is_empty (c : Cell) : Bool := c.flags == CellFlag.empty

/-- Cell::is_food. -/
def is_food (c : Cell) : Bool := c.flags == CellFlag.food

/-- Cell::is_snake_body_piece. -/
def is_snake_body_piece (c : Cell) : Bool := c.flags == CellFlag.snakeBodyPiece

/-- Cell::is_double_stacked_piece. -/
def is_double_stacked_piece (c : Cell) : Bool :=
  c.flags == CellFlag.doubleStackedPiece

/-- Cell::is_triple_stacked_piece. -/
def is_triple_stacked_piece (c : Cell) : Bool :=
  c.flags == CellFlag.tripleStackedPiece

/-- Cell::is_body_segment (BodyPiece, DoubleStacked or TripleStacked). -/
def is_body_segment (c : Cell) : Bool :=
  c.is_snake_body_piece || c.is_double_stacked_piece || c.is_triple_stacked_piece

/-- Cell::is_head (SnakeHead or TripleStacked). -/
def is_head (c : Cell) : Bool :=
  c.flags == CellFlag.snakeHead || c.is_triple_stacked_piece

/-- Cell::is_stacked. -/
def is_stacked (c : Cell) : Bool :=
  c.is_double_stacked_piece || c.is_triple_stacked_piece

/-- Cell::is_hazard. -/
def is_hazard (c : Cell) : Bool := c.hazard_count != 0

/-- Cell::get_tail_position: for a head, the stored tail link (the cell's own
index for a triple stack); none otherwise. -/
def get_tail_position (c : Cell) (ci : Nat) : Option Nat :=
  if c.is_head then
    if c.is_triple_stacked_piece then some ci else some c.idx
  else none

/-- Cell::get_next_index: the link of a BodyPiece or DoubleStacked cell. -/
def get_next_index (c : Cell) : Option Nat :=
  if c.is_snake_body_piece || c.is_double_stacked_piece then some c.idx
  else none

/-- Cell::get_snake_id. -/
def get_snake_id (c : Cell) : Option Nat :=
  if c.is_body_segment || c.is_head then some c.id else none

/-- Cell::remove: reset to Empty preserving the hazard count. -/
def remove (c : Cell) : Cell := { c with flags := .empty, id := 0, idx := 0 }

/-- Cell::set_food. -/
def set_food (c : Cell) : Cell := { c with flags := .food }

/-- Cell::set_hazard. -/
def set_hazard (c : Cell) : Cell := { c with hazard_count := 1 }

/-- Cell::set_head. -/
def set_head (c : Cell) (sid tail_index : Nat) : Cell :=
  { c with flags := .snakeHead, id := sid, idx := tail_index }

/-- Cell::set_body_piece. -/
def set_body_piece (c : Cell) (sid next_pos : Nat) : Cell :=
  { c with flags := .snakeBodyPiece, id := sid, idx := next_pos }

/-- Cell::set_double_stacked. -/
def set_double_stacked (c : Cell) (sid next_pos : Nat) : Cell :=
  { c with flags := .doubleStackedPiece, id := sid, idx := next_pos }

/-- Cell::make_snake_head. -/
def make_snake_head (sid tail_index : Nat) : Cell :=
  ⟨.snakeHead, 0, sid, tail_index⟩

/-- Cell::make_body_piece. -/
def make_body_piece (sid next_index : Nat) : Cell :=
  ⟨.snakeBodyPiece, 0, sid, next_index⟩

/-- Cell::make_double_stacked_piece. -/
def make_double_stacked_piece (sid next_index : Nat) : Cell :=
  ⟨.doubleStackedPiece, 0, sid, next_index⟩

/-- Cell::make_triple_stacked_piece. -/
def make_triple_stacked_piece (sid : Nat) : Cell :=
  ⟨.tripleStackedPiece, 0, sid, 0⟩

/-- Cell::pack_as_u32: flags in the low byte, owner id in the next byte,
link index in the top 16 bits. -/
def pack_as_u32 (c : Cell) : Nat :=
  c.flags.toByte ||| ((c.id &&& 0xff) <<< 8) ||| ((c.idx &&& 0xffff) <<< 16)

/-- Cell::from_u32; the hazard count always unpacks as 0.  none models the
transmute of an invalid flag byte. -/
def from_u32 (value : Nat) : Option Cell :=
  match CellFlag.ofByte (value &&& 0xff) with
  | none => none
  | some flags =>
    some ⟨flags, 0, (value >>> 8) &&& 0xff, (value >>> 16) &&& 0xffff⟩

end Cell

/-- The compact board (core/cell_board/mod.rs, struct CellBoard).  The const
generics BOARD_SIZE and MAX_SNAKES of the source are the lengths of cells and
of healths / heads / lengths; width and height come from the Dimensions
capability (Square / Custom instantiations: stored width = actual width). -/
structure CellBoard where
  hazard_damage : Nat
  cells : List Cell
  healths : List Nat
  heads : List Nat
  lengths : List Nat
  width : Nat
  height : Nat
deriving DecidableEq, Repr

namespace CellBoard

/-- CellBoard::get_cell. -/
def get_cell (b : CellBoard) (i : Nat) : Cell := b.cells.getD i Cell.emptyCell

/-- Write one cell of the board (the common tail of the cell mutators). -/
def set_cell (b : CellBoard) (i : Nat) (c : Cell) : CellBoard :=
  { b with cells := b.cells.set i c }

/-- CellBoard::cell_remove (read, Cell::remove, write back). -/
def cell_remove (b : CellBoard) (i : Nat) : CellBoard :=
  b.set_cell i ((b.get_cell i).remove)

/-- CellBoard::set_cell_body_piece. -/
def set_cell_body_piece (b : CellBoard) (i sid next_id : Nat) : CellBoard :=
  b.set_cell i ((b.get_cell i).set_body_piece sid next_id)

/-- CellBoard::set_cell_double_stacked. -/
def set_cell_double_stacked (b : CellBoard) (i sid next_id : Nat) : CellBoard :=
  b.set_cell i ((b.get_cell i).set_double_stacked sid next_id)

/-- CellBoard::set_cell_head. -/
def set_cell_head (b : CellBoard) (i sid next_id : Nat) : CellBoard :=
  b.set_cell i ((b.get_cell i).set_head sid next_id)

/-- CellBoard::off_board. -/
def off_board (b : CellBoard) (p : Position) : Bool :=
  p.x < 0 || p.x ≥ (b.width : Int) || p.y < 0 || p.y ≥ (b.height : Int)

/-- CellBoard::as_wrapped_cell_index: the debug-asserted one-step wrap.  The
final else of the source is an unreachable panic (off_board guarantees one of
the four branches); the embedding returns the unchanged position there. -/
def as_wrapped_cell_index (b : CellBoard) (pos : Position) : Nat :=
  if b.off_board pos then
    let pos2 : Position :=
      if pos.x < 0 then { pos with x := (b.width : Int) - 1 }
      else if pos.x ≥ (b.width : Int) then { pos with x := 0 }
      else if pos.y < 0 then { pos with y := (b.height : Int) - 1 }
      else if pos.y ≥ (b.height : Int) then { pos with y := 0 }
      else pos
    cellIndexNew pos2 b.width
  else cellIndexNew pos b.width

/-- CellBoard::kill: zero the per-agent slots. -/
def kill (b : CellBoard) (sid : Nat) : CellBoard :=
  { b with
    healths := b.healths.set sid 0
    heads := b.heads.set sid 0
    lengths := b.lengths.set sid 0 }

/-- CellBoard::get_length. -/
def get_length (b : CellBoard) (sid : Nat) : Nat := b.lengths.getD sid 0

/-- The while-let loop of kill_and_remove: read the next link, then remove the
current cell.  Fuel bounds the walk; none models divergence on a cyclic ring. -/
def killRemoveLoop : Nat → CellBoard → Option Nat → Option CellBoard
  | _, b, none => some b
  | 0, _, some _ => none
  | fuel + 1, b, some i =>
    killRemoveLoop fuel (b.cell_remove i) ((b.get_cell i).get_next_index)

/-- CellBoard::kill_and_remove. -/
def kill_and_remove (b : CellBoard) (sid fuel : Nat) : Option CellBoard :=
  let head := b.heads.getD sid 0
  (killRemoveLoop fuel b ((b.get_cell head).get_tail_position head)).map
    (fun b2 => b2.kill sid)

/-- The inner while loop of assert_consistency: walk from the tail pointer
toward the head, checking each visited cell. -/
def consistency_walk (b : CellBoard) (snake_id head_index : Nat) :
    Nat → Nat → Option Bool
  | 0, _ => none
  | fuel + 1, index =>
    if index = head_index then some true
    else if !(b.get_cell index).is_body_segment then some false
    else if (b.get_cell index).get_snake_id ≠ some snake_id then some false
    else
      match (b.get_cell index).get_next_index with
      | none => some false
      | some j => consistency_walk b snake_id head_index fuel j

/-- The per-snake loop of assert_consistency, over the list of agent ids. -/
def assert_consistency_aux (b : CellBoard) (fuel : Nat) :
    List Nat → Option Bool
  | [] => some true
  | i :: rest =>
    if 0 < b.healths.getD i 0 then
      match (b.get_cell (b.heads.getD i 0)).get_tail_position
          (b.heads.getD i 0) with
      | none => some false
      | some tail_index =>
        match consistency_walk b i (b.heads.getD i 0) fuel tail_index with
        | none => none
        | some false => some false
        | some true => assert_consistency_aux b fuel rest
    else assert_consistency_aux b fuel rest

/-- CellBoard::assert_consistency: walk every alive agent's ring; true iff
every walk reaches the head through owned body segments.  Fuel bounds each
walk (the Rust loop diverges on a cyclic ring). -/
def assert_consistency (b : CellBoard) (fuel : Nat) : Option Bool :=
  assert_consistency_aux b fuel (List.range b.healths.length)

end CellBoard

/-- Which mode to evaluate in (eval.rs, enum EvaluateMode). -/
inductive EvaluateMode where
  | wrapped
  | standard
deriving DecidableEq, Repr

/-- Precomputed state for a single snake move (eval.rs, AliveMoveResult). -/
structure AliveMoveResult where
  id : Nat
  old_head : Nat
  new_head : Nat
  old_tail : Nat
  new_tail : Nat
  new_health : Nat
  ate_food : Bool
  new_length : Nat
deriving DecidableEq, Repr

/-- First-phase outcome of one (snake, direction) pair (eval.rs,
SinglePlayerMoveResult). -/
inductive SinglePlayerMoveResult where
  | alive (a : AliveMoveResult)
  | dead
deriving DecidableEq, Repr

namespace CellBoard

/-- The position one step from the agent's head in direction m (the
new_head_position computation of generate_state). -/
def new_head_position (b : CellBoard) (sid : Nat) (m : Move) : Position :=
  (intoPosition (b.heads.getD sid 0) b.width).add_vec m.to_vector

/-- Resolution of the new head position to a cell index: Dead (none) when
off-board in Standard mode, the one-step wrap in Wrapped mode. -/
def new_head_index (b : CellBoard) (mode : EvaluateMode) (sid : Nat)
    (m : Move) : Option Nat :=
  match mode with
  | .wrapped => some (b.as_wrapped_cell_index (b.new_head_position sid m))
  | .standard =>
    if b.off_board (b.new_head_position sid m) then none
    else some (cellIndexNew (b.new_head_position sid m) b.width)

/-- The agent's tail cell index, read from the head cell's tail pointer
(generate_state's old_tail; none models the unwrap panic). -/
def old_tail_of (b : CellBoard) (sid : Nat) : Option Nat :=
  let old_head := b.heads.getD sid 0
  (b.get_cell old_head).get_tail_position old_head

/-- The neck loop of generate_state: walk from the tail to the head keeping
the predecessor; the predecessor of the head is the neck. -/
def neck_loop (b : CellBoard) (old_head : Nat) :
    Nat → Nat → Nat → Option Nat
  | 0, _, _ => none
  | fuel + 1, curr, prev =>
    if curr = old_head then some prev
    else
      match (b.get_cell curr).get_next_index with
      | none => none
      | some nxt => neck_loop b old_head fuel nxt curr

/-- The agent's neck (generate_state; none models panic or divergence). -/
def neck_of (b : CellBoard) (sid fuel : Nat) : Option Nat :=
  match b.old_tail_of sid with
  | none => none
  | some old_tail => b.neck_loop (b.heads.getD sid 0) fuel old_tail old_tail

/-- One entry of generate_state: the outcome of a single (snake, direction)
pair evaluated in isolation.  some .dead corresponds to the continue paths
(off-board, neck reversal, starvation) that leave the table entry Dead;
none models a panic (missing tail / inconsistent ring). -/
def generate_one (b : CellBoard) (mode : EvaluateMode) (sid : Nat) (m : Move)
    (fuel : Nat) : Option SinglePlayerMoveResult :=
  if b.healths.getD sid 0 = 0 then some .dead
  else
    match b.old_tail_of sid with
    | none => none
    | some old_tail =>
      match b.new_head_index mode sid m with
      | none => some .dead
      | some new_head =>
        match b.neck_of sid fuel with
        | none => none
        | some neck =>
          if new_head = neck then some .dead
          else
            match
              (if (b.get_cell old_tail).is_stacked then some old_tail
               else (b.get_cell old_tail).get_next_index) with
            | none => none
            | some new_tail =>
              if (if (b.get_cell new_head).is_food then 100
                  else if (b.get_cell new_head).is_hazard then
                    b.healths.getD sid 0 - 1 - b.hazard_damage
                  else b.healths.getD sid 0 - 1) = 0 then some .dead
              else
                some (.alive ⟨sid, b.heads.getD sid 0, new_head, old_tail,
                  new_tail,
                  (if (b.get_cell new_head).is_food then 100
                   else if (b.get_cell new_head).is_hazard then
                     b.healths.getD sid 0 - 1 - b.hazard_damage
                   else b.healths.getD sid 0 - 1),
                  (b.get_cell new_head).is_food,
                  (if (b.get_cell new_head).is_food then
                    min (b.lengths.getD sid 0 + 1) 65535
                   else b.lengths.getD sid 0)⟩)

/-- CellBoard::generate_state: fill the per-snake per-direction table,
initialised to Dead, skipping dead snakes.  The table is modelled as a
function; none propagates a generate_one panic. -/
def generate_state (b : CellBoard) (mode : EvaluateMode)
    (idsAndMoves : List (Nat × List Move)) (fuel : Nat) :
    Option (Nat → Move → SinglePlayerMoveResult) :=
  idsAndMoves.foldlM
    (fun tbl sm =>
      if b.healths.getD sm.1 0 = 0 then some tbl
      else
        sm.2.foldlM
          (fun tbl m =>
            match b.generate_one mode sm.1 m fuel with
            | none => none
            | some r =>
              some (fun s mm => if s = sm.1 ∧ mm = m then r else tbl s mm))
          tbl)
    (fun _ _ => SinglePlayerMoveResult.dead)

/-- Phase A of evaluate_moves_with_state, for one (snake, move) pair: apply
the precomputed result without collision resolution (remove the tail, demote
a double-stacked tail, re-link the head cell, apply health / length, promote
the new tail on food; kill_and_remove for Dead results). -/
def phaseA_step (fuel : Nat) (tbl : Nat → Move → SinglePlayerMoveResult)
    (b : CellBoard) (idm : Nat × Move) : Option CellBoard :=
  match tbl idm.1 idm.2 with
  | .dead => b.kill_and_remove idm.1 fuel
  | .alive a =>
    let old_tail_cell := b.get_cell a.old_tail
    let b1 :=
      if old_tail_cell.is_double_stacked_piece then
        b.set_cell_body_piece a.old_tail a.id old_tail_cell.idx
      else
        (b.cell_remove a.old_tail).set_cell_head a.old_head a.id a.new_tail
    let b2 :=
      { b1 with
        healths := b1.healths.set a.id a.new_health
        lengths := b1.lengths.set a.id a.new_length }
    some
      (if a.ate_food then
        b2.set_cell_double_stacked a.new_tail a.id ((b2.get_cell a.new_tail).idx)
      else b2)

/-- Phase A over the whole joint move. -/
def phaseA (b : CellBoard) (moves : List (Nat × Move))
    (tbl : Nat → Move → SinglePlayerMoveResult) (fuel : Nat) :
    Option CellBoard :=
  moves.foldlM (phaseA_step fuel tbl) b

/-- Phase B (Step 4c-d): mark for death every alive mover whose new head cell
is currently a body segment or a head. -/
def phaseB (b : CellBoard) (moves : List (Nat × Move))
    (tbl : Nat → Move → SinglePlayerMoveResult) (tk : List Bool) : List Bool :=
  moves.foldl
    (fun tk idm =>
      match tbl idm.1 idm.2 with
      | .alive a =>
        let c := b.get_cell a.new_head
        if c.is_body_segment || c.is_head then tk.set a.id true else tk
      | .dead => tk)
    tk

/-- The alive first-phase results of a joint move, in move order. -/
def alive_results (moves : List (Nat × Move))
    (tbl : Nat → Move → SinglePlayerMoveResult) : List AliveMoveResult :=
  moves.filterMap
    (fun idm =>
      match tbl idm.1 idm.2 with
      | .alive a => some a
      | .dead => none)

/-- First-occurrence deduplication (the distinct keys of the group map). -/
def dedupKeys : List Nat → List Nat → List Nat
  | [], _ => []
  | x :: xs, seen =>
    if x ∈ seen then dedupKeys xs seen else x :: dedupKeys xs (x :: seen)

/-- The maximum current length within a head-to-head group (phase C's
max_by_key over lengths). -/
def group_max_len (b : CellBoard) (group : List AliveMoveResult) : Nat :=
  (group.map (fun i => b.get_length i.id)).foldl max 0

/-- Rust's Iterator::max_by_key over lengths (returns the last maximum). -/
def max_by_len (b : CellBoard) (group : List AliveMoveResult) :
    Option AliveMoveResult :=
  group.foldl
    (fun acc x =>
      match acc with
      | none => some x
      | some best =>
        if b.get_length best.id ≤ b.get_length x.id then some x else some best)
    none

/-- Phase C's head_to_head_collision_on_another_snake: the shared cell is a
non-head body segment owned by a snake outside the group.  (The && chain of
the source guards the owner unwrap by is_body_segment, under which
get_snake_id is some of the cell's id field.) -/
def on_another_snake (b : CellBoard) (key : Nat)
    (group : List AliveMoveResult) : Bool :=
  let cell := b.get_cell key
  cell.is_body_segment && !cell.is_head &&
    !((group.map (fun i => i.id)).contains cell.id)

/-- Phase C's multiple_snakes_max_length: more or fewer than exactly one
group member holds the maximum length. -/
def multiple_max (b : CellBoard) (group : List AliveMoveResult) : Bool :=
  (group.filter
    (fun x => b.get_length x.id == b.group_max_len group)).length != 1

/-- Phase C's winner for one head-to-head group: none on a length tie or when
the group landed on a third snake's body. -/
def winner_of (b : CellBoard) (key : Nat) (group : List AliveMoveResult) :
    Option AliveMoveResult :=
  if b.multiple_max group || b.on_another_snake key group then none
  else b.max_by_len group

/-- Resolution of one head-to-head group: mark all non-winners, and clear the
shared cell when there is no winner and it is not a third snake's body. -/
def resolve_group (b : CellBoard) (tk : List Bool) (key : Nat)
    (group : List AliveMoveResult) : CellBoard × List Bool :=
  ((if (b.winner_of key group).isNone && !(b.on_another_snake key group) then
      b.cell_remove key
    else b),
   group.foldl
    (fun tk x =>
      if (b.winner_of key group).map (fun w => w.id) ≠ some x.id then
        tk.set x.id true
      else tk)
    tk)

/-- Phase C (Step 4e): group the alive results by new head and resolve every
group of two or more.  The source iterates a HashMap in arbitrary order; the
groups touch pairwise distinct cells and only add marks, so the fixed
first-occurrence order used here is observationally identical. -/
def phaseC (b : CellBoard) (moves : List (Nat × Move))
    (tbl : Nat → Move → SinglePlayerMoveResult) (tk : List Bool) :
    CellBoard × List Bool :=
  let results := alive_results moves tbl
  let keys := dedupKeys (results.map (fun a => a.new_head)) []
  keys.foldl
    (fun bt key =>
      let group := results.filter (fun a => a.new_head == key)
      if 2 ≤ group.length then resolve_group bt.1 bt.2 key group else bt)
    (b, tk)

/-- Phase D for one (snake, move) pair: kill marked movers, commit the head
move for survivors (the old head cell is re-read from the original board to
decide the triple-stack demotion). -/
def phaseD_step (fuel : Nat) (orig : CellBoard)
    (tbl : Nat → Move → SinglePlayerMoveResult) (tk : List Bool)
    (b : CellBoard) (idm : Nat × Move) : Option CellBoard :=
  match tbl idm.1 idm.2 with
  | .dead => some b
  | .alive a =>
    if tk.getD a.id false then b.kill_and_remove a.id fuel
    else
      let b1 := { b with heads := b.heads.set a.id a.new_head }
      let b2 := b1.set_cell_head a.new_head a.id a.new_tail
      let old_head_cell := orig.get_cell a.old_head
      some
        (if old_head_cell.is_triple_stacked_piece then
          b2.set_cell_double_stacked a.old_head a.id a.new_head
        else b2.set_cell_body_piece a.old_head a.id a.new_head)

/-- CellBoard::evaluate_moves_with_state: the four phases in order. -/
def evaluate_moves_with_state (b : CellBoard) (moves : List (Nat × Move))
    (tbl : Nat → Move → SinglePlayerMoveResult) (fuel : Nat) :
    Option CellBoard := do
  let b1 ← phaseA b moves tbl fuel
  let tk0 := List.replicate b.healths.length false
  let tk1 := phaseB b1 moves tbl tk0
  let bt := phaseC b1 moves tbl tk1
  moves.foldlM (phaseD_step fuel b tbl bt.2) bt.1

end CellBoard

/-- The Cartesian product of per-agent move lists (itertools
multi_cartesian_product, first list outermost). -/
def cartesianProduct {α : Type} : List (List α) → List (List α)
  | [] => [[]]
  | l :: ls => l.flatMap (fun x => (cartesianProduct ls).map (fun r => x :: r))

/-- The per-agent filtered move lists of simulate_with_moves: keep the
directions whose first-phase result is not Dead; fall back to the first
candidate when all are Dead (none models the panic of borrow()[0] on an
empty candidate list). -/
def filtered_move_lists (idsAndMoves : List (Nat × List Move))
    (tbl : Nat → Move → SinglePlayerMoveResult) :
    Option (List (List (Nat × Move))) :=
  idsAndMoves.mapM
    (fun sm =>
      match sm.2.head? with
      | none => none
      | some first_move =>
        let kept :=
          (sm.2.filter (fun m => !(tbl sm.1 m == SinglePlayerMoveResult.dead))).map
            (fun m => (sm.1, m))
        some (if kept.isEmpty then [(sm.1, first_move)] else kept))

/-- The joint moves enumerated by simulate_with_moves from a board: the
Cartesian product of the filtered per-agent lists. -/
def simulate_product (b : CellBoard) (mode : EvaluateMode)
    (idsAndMoves : List (Nat × List Move)) (fuel : Nat) :
    Option (List (List (Nat × Move))) := do
  let tbl ← b.generate_state mode idsAndMoves fuel
  let lists ← filtered_move_lists idsAndMoves tbl
  some (cartesianProduct lists)

/-- simulate_with_moves (core/simulate.rs): evaluate every joint move of the
product, panicking (none) when a successor fails assert_consistency.  The
Action vector of the source carries the same data as the joint move list. -/
def simulate_with_moves (b : CellBoard) (mode : EvaluateMode)
    (idsAndMoves : List (Nat × List Move)) (fuel : Nat) :
    Option (List (List (Nat × Move) × CellBoard)) := do
  let tbl ← b.generate_state mode idsAndMoves fuel
  let lists ← filtered_move_lists idsAndMoves tbl
  (cartesianProduct lists).mapM
    (fun m => do
      let game ← b.evaluate_moves_with_state m tbl fuel
      match game.assert_consistency fuel with
      | some true => some (m, game)
      | _ => none)

namespace CellBoard

/-- VictorDeterminableGame::is_over (victor_determinable.rs). -/
def is_over (b : CellBoard) : Bool :=
  b.healths.getD 0 0 == 0 || (b.healths.filter (fun h => h ≠ 0)).length ≤ 1

/-- The ids with nonzero health, ascending (the winning_ids collection). -/
def alive_ids (b : CellBoard) : List Nat :=
  (List.range b.healths.length).filter (fun i => b.healths.getD i 0 ≠ 0)

/-- VictorDeterminableGame::get_winner: when the game is over, the first
alive id if any (None when the board is empty of alive snakes). -/
def get_winner (b : CellBoard) : Option Nat :=
  if b.is_over then (b.alive_ids).head? else none

/-- VictorDeterminableGame::alive_snake_count. -/
def alive_snake_count (b : CellBoard) : Nat :=
  (b.healths.filter (fun h => h ≠ 0)).length

end CellBoard

/-- Variants of BestCellBoard (standard/mod.rs). -/
inductive BestKind where
  | smallExact
  | tiny
  | mediumExact
  | standard
  | largestU8
  | largeExact
  | arcadeMaze
  | large
  | silly
deriving DecidableEq, Repr

/-- BOARD_SIZE of each specialization. -/
def BestKind.boardSize : BestKind → Nat
  | .smallExact => 7 * 7
  | .tiny => 7 * 7
  | .mediumExact => 11 * 11
  | .standard => 11 * 11
  | .largestU8 => 15 * 15
  | .largeExact => 19 * 19
  | .arcadeMaze => 19 * 21
  | .large => 25 * 25
  | .silly => 50 * 50

/-- MAX_SNAKES of each specialization. -/
def BestKind.maxSnakes : BestKind → Nat
  | .smallExact => 4
  | .tiny => 4
  | .mediumExact => 4
  | .standard => 4
  | .largestU8 => 8
  | .largeExact => 4
  | .arcadeMaze => 4
  | .large => 8
  | .silly => 16

/-- The size / snake-count checks of CellBoard::convert_from_game, the part
that depends only on the declared dimensions and snake count. -/
def convertSizeCheck (k : BestKind) (w h n : Nat) : Except String BestKind :=
  if k.boardSize < w * h then
    Except.error "game size doesn't fit in the given board size"
  else if k.maxSnakes < n then Except.error "too many snakes"
  else Except.ok k

/-- ToBestCellBoard::to_best_cell_board (standard/mod.rs), projected onto the
declared width, height and snake count it dispatches on.  none models the
final panic ("No board was big enough"); an Except.error models the
conversion error of the selected specialization. -/
def to_best_cell_board (w h n : Nat) : Option (Except String BestKind) :=
  if w = 7 ∧ h = 7 ∧ n ≤ 4 then some (convertSizeCheck .smallExact w h n)
  else if w ≤ 7 ∧ h ≤ 7 ∧ n ≤ 4 then some (convertSizeCheck .tiny w h n)
  else if w = 11 ∧ h = 11 ∧ n ≤ 4 then some (convertSizeCheck .mediumExact w h n)
  else if w ≤ 11 ∧ n ≤ 4 then some (convertSizeCheck .standard w h n)
  else if w ≤ 15 ∧ n ≤ 8 then some (convertSizeCheck .largestU8 w h n)
  else if w = 19 ∧ h = 19 ∧ n ≤ 4 then some (convertSizeCheck .largeExact w h n)
  else if w ≤ 25 ∧ n ≤ 8 then some (convertSizeCheck .large w h n)
  else if w ≤ 50 ∧ n ≤ 16 then some (convertSizeCheck .silly w h n)
  else none

/-- Snake record of the wire snapshot, restricted to the fields consumed by
conversion (wire_representation/mod.rs, struct BattleSnake). -/
structure BattleSnakeW where
  sid : String
  head : Position
  body : List Position
  health : Nat
deriving DecidableEq, Repr

/-- Game snapshot, restricted to the fields consumed by conversion
(wire_representation/mod.rs, structs Game / Board / NestedGame / Ruleset). -/
structure GameW where
  ruleset_name : String
  width : Nat
  height : Nat
  snakes : List BattleSnakeW
  food : List Position
  hazards : List Position
  hazard_damage_per_turn : Option Nat
deriving DecidableEq, Repr

/-- Game::is_wrapped. -/
def GameW.is_wrapped (g : GameW) : Bool := g.ruleset_name == "wrapped"

/-- First-occurrence deduplication of positions (itertools unique). -/
def uniquePositions : List Position → List Position → List Position
  | [], _ => []
  | x :: xs, seen =>
    if x ∈ seen then uniquePositions xs seen
    else x :: uniquePositions xs (x :: seen)

/-- The body-writing loop of convert_from_game for one snake: iterate the
unique body positions head-first, writing a triple stack, the head cell, a
double stack or a body piece; none models the two asserts (first unique
position must be the head; the head is never double-stacked). -/
def writeSnakeBody (g : GameW) (snake : BattleSnakeW) (snake_id : Nat)
    (head_idx : Nat) : List Position → Nat → Nat → List Cell →
    Option (List Cell)
  | [], _, _, cells => some cells
  | pos :: rest, i, next_index, cells =>
    let cell_idx := cellIndexNew pos g.width
    let count := snake.body.count pos
    if i = 0 ∧ cell_idx ≠ head_idx then none
    else
      let cellVal : Option Cell :=
        if count = 3 then some (Cell.make_triple_stacked_piece snake_id)
        else if pos = snake.head then
          if count = 2 then none
          else
            match snake.body.getLast? with
            | none => none
            | some back =>
              some (Cell.make_snake_head snake_id (cellIndexNew back g.width))
        else if count = 2 then
          some (Cell.make_double_stacked_piece snake_id next_index)
        else some (Cell.make_body_piece snake_id next_index)
      match cellVal with
      | none => none
      | some c =>
        writeSnakeBody g snake snake_id head_idx rest (i + 1) cell_idx
          (cells.set cell_idx c)

/-- Per-snake step of convert_from_game: skip zero-health snakes, then write
the health, length, head slot and body cells (none models the panicking
snake-id map lookup and the body asserts). -/
def convertSnakeStep (g : GameW) (ids : String → Option Nat)
    (st : List Cell × List Nat × List Nat × List Nat)
    (snake : BattleSnakeW) :
    Option (List Cell × List Nat × List Nat × List Nat) :=
  if snake.health = 0 then some st
  else
    match ids snake.sid with
    | none => none
    | some snake_id =>
      let (cells, healths, heads, lengths) := st
      let healths2 := healths.set snake_id snake.health
      let lengths2 := lengths.set snake_id snake.body.length
      let head_idx := cellIndexNew snake.head g.width
      let heads2 := heads.set snake_id head_idx
      match
        writeSnakeBody g snake snake_id head_idx
          (uniquePositions snake.body []) 0 head_idx cells with
      | none => none
      | some cells2 => some (cells2, healths2, heads2, lengths2)

/-- The food / hazard grid pass of convert_from_game. -/
def applyFoodAndHazards (g : GameW) (cells : List Cell) : List Cell :=
  (List.range g.height).foldl
    (fun cells y =>
      (List.range g.width).foldl
        (fun cells x =>
          let position : Position := ⟨(x : Int), (y : Int)⟩
          let cell_idx := cellIndexNew position g.width
          let cells2 :=
            if g.hazards.contains position then
              cells.set cell_idx ((cells.getD cell_idx Cell.emptyCell).set_hazard)
            else cells
          if g.food.contains position then
            cells2.set cell_idx ((cells2.getD cell_idx Cell.emptyCell).set_food)
          else cells2)
        cells)
    cells

/-- CellBoard::convert_from_game (core/cell_board/mod.rs; the wrapped
variant's convert_from_game performs the same checks and writes).  boardSize
and maxSnakes are the const generics of the instantiation.  Except.error
models the returned errors, none models a panic. -/
def convert_from_game (g : GameW) (ids : String → Option Nat)
    (boardSize maxSnakes : Nat) : Option (Except String CellBoard) :=
  if boardSize < g.width * g.height then
    some (Except.error "game size doesn't fit in the given board size")
  else if maxSnakes < g.snakes.length then some (Except.error "too many snakes")
  else if g.snakes.any (fun snake =>
      (snake.body.any (fun p => snake.body.count p = 3)) &&
        (uniquePositions snake.body []).length ≠ 1) then
    some (Except.error "bad body stack")
  else
    let init : List Cell × List Nat × List Nat × List Nat :=
      (List.replicate boardSize Cell.emptyCell, List.replicate maxSnakes 0,
        List.replicate maxSnakes 0, List.replicate maxSnakes 0)
    match g.snakes.foldlM (convertSnakeStep g ids) init with
    | none => none
    | some (cells, healths, heads, lengths) =>
      some (Except.ok
        { hazard_damage := g.hazard_damage_per_turn.getD 15
          cells := applyFoodAndHazards g cells
          healths := healths
          heads := heads
          lengths := lengths
          width := g.width
          height := g.height })

/-- StandardCellBoard::convert_from_game (standard/mod.rs): reject wrapped
snapshots with an error, then run the core conversion. -/
def standard_convert_from_game (g : GameW) (ids : String → Option Nat)
    (boardSize maxSnakes : Nat) : Option (Except String CellBoard) :=
  if g.ruleset_name = "wrapped" then
    some (Except.error "Wrapped games are not supported")
  else convert_from_game g ids boardSize maxSnakes

/-- Game::as_wrapped_cell_board (wire_representation/mod.rs): convert when
the snapshot is wrapped, panic (none) otherwise.  The wrapped converter
itself performs no mode check. -/
def as_wrapped_cell_board (g : GameW) (ids : String → Option Nat)
    (boardSize maxSnakes : Nat) : Option (Except String CellBoard) :=
  if g.is_wrapped then convert_from_game g ids boardSize maxSnakes
  else none

/-! ### Concrete boards used by counterexamples and witnesses -/

/-- 5x5 standard board, three length-2 snakes: snake 0 head (1,2) tail (0,2),
snake 1 head (3,2) tail (4,2), snake 2 head (2,2) tail (2,1).  Cell index is
y*5+x. -/
def cellsThreeSnakes : List Cell :=
  (List.range 25).map (fun i =>
    if i = 10 then Cell.make_body_piece 0 11
    else if i = 11 then Cell.make_snake_head 0 10
    else if i = 14 then Cell.make_body_piece 1 13
    else if i = 13 then Cell.make_snake_head 1 14
    else if i = 7 then Cell.make_body_piece 2 12
    else if i = 12 then Cell.make_snake_head 2 7
    else Cell.emptyCell)

/-- The board of the C1 failing input: snakes 0 and 1 flank the head of the
static snake 2. -/
def boardHeadTarget : CellBoard :=
  { hazard_damage := 15
    cells := cellsThreeSnakes
    healths := [50, 50, 50]
    heads := [11, 13, 12]
    lengths := [2, 2, 2]
    width := 5
    height := 5 }

/-- The first-phase table generate_state builds on boardHeadTarget for the
candidate lists [Right] (snake 0) and [Left] (snake 1). -/
def tblHeadTarget : Nat → Move → SinglePlayerMoveResult := fun s mm =>
  if s = 1 ∧ mm = Move.left then
    .alive ⟨1, 13, 12, 14, 13, 49, false, 2⟩
  else if s = 0 ∧ mm = Move.right then
    .alive ⟨0, 11, 12, 10, 11, 49, false, 2⟩
  else .dead

/-- Variant of the flanking board where the third snake is a triple-stacked
spawn at (2,2) (used by the C2 counterexample). -/
def boardTripleTarget : CellBoard :=
  { hazard_damage := 15
    cells :=
      (List.range 25).map (fun i =>
        if i = 10 then Cell.make_body_piece 0 11
        else if i = 11 then Cell.make_snake_head 0 10
        else if i = 14 then Cell.make_body_piece 1 13
        else if i = 13 then Cell.make_snake_head 1 14
        else if i = 12 then Cell.make_triple_stacked_piece 2
        else Cell.emptyCell)
    healths := [50, 50, 90]
    heads := [11, 13, 12]
    lengths := [2, 2, 3]
    width := 5
    height := 5 }

/-- The head-to-head group of the C2 counterexample: snakes 0 and 1 both
enter cell (2,2) = 12. -/
def grpTriple : List AliveMoveResult :=
  [⟨0, 11, 12, 10, 11, 49, false, 2⟩, ⟨1, 13, 12, 14, 13, 49, false, 2⟩]

/-- 1x1 board holding a single triple-stacked snake whose recorded length (7)
disagrees with the ring (3 segments). -/
def boardBadLength : CellBoard :=
  { hazard_damage := 15
    cells := [Cell.make_triple_stacked_piece 0]
    healths := [1]
    heads := [0]
    lengths := [7]
    width := 1
    height := 1 }

/-- Board where "you" (agent 0) is dead while agents 1 and 2 remain alive. -/
def boardYouDead : CellBoard :=
  { hazard_damage := 15
    cells := []
    healths := [0, 50, 50, 0]
    heads := [0, 0, 0, 0]
    lengths := [0, 3, 3, 0]
    width := 11
    height := 11 }

/-- A minimal non-wrapped snapshot (ruleset "standard"). -/
def gameStandard : GameW :=
  { ruleset_name := "standard"
    width := 3
    height := 3
    snakes := []
    food := []
    hazards := []
    hazard_damage_per_turn := none }

/-- A minimal wrapped snapshot. -/
def gameWrapped : GameW :=
  { ruleset_name := "wrapped"
    width := 3
    height := 3
    snakes := []
    food := []
    hazards := []
    hazard_damage_per_turn := none }

/-! ### Helper lemmas -/

/-- The flag tag always fits in the low byte. -/
theorem CellFlag.toByte_lt (f : CellFlag) : f.toByte < 256 := by
  cases f <;> decide

/-- Decoding inverts encoding on flag tags. -/
theorem CellFlag.ofByte_toByte (f : CellFlag) :
    CellFlag.ofByte f.toByte = some f := by
  cases f <;> rfl

/-- pack_as_u32 written arithmetically: the three bit-or'd fields occupy
disjoint bit ranges, so the packing is plain positional arithmetic. -/
theorem Cell.pack_as_u32_eq_add (c : Cell) (h1 : c.id < 256)
    (h2 : c.idx < 65536) :
    c.pack_as_u32 = c.flags.toByte + c.id * 256 + c.idx * 65536 := by
  have hf := CellFlag.toByte_lt c.flags
  unfold Cell.pack_as_u32
  have e1 : c.id &&& 0xff = c.id := by
    have : (0xff : Nat) = 2 ^ 8 - 1 := by norm_num
    rw [this, Nat.and_pow_two_sub_one_of_lt_two_pow (by omega)]
  have e2 : c.idx &&& 0xffff = c.idx := by
    have : (0xffff : Nat) = 2 ^ 16 - 1 := by norm_num
    rw [this, Nat.and_pow_two_sub_one_of_lt_two_pow (by omega)]
  rw [e1, e2, Nat.shiftLeft_eq, Nat.shiftLeft_eq]
  have o1 : c.flags.toByte ||| c.id * 2 ^ 8 = c.flags.toByte + c.id * 2 ^ 8 :=
    calc c.flags.toByte ||| c.id * 2 ^ 8
        = c.id * 2 ^ 8 ||| c.flags.toByte := Nat.or_comm _ _
      _ = 2 ^ 8 * c.id ||| c.flags.toByte := by rw [Nat.mul_comm c.id]
      _ = 2 ^ 8 * c.id + c.flags.toByte :=
          (Nat.mul_add_lt_is_or (by omega) c.id).symm
      _ = c.flags.toByte + c.id * 2 ^ 8 := by ring
  have hlt : c.flags.toByte + c.id * 2 ^ 8 < 2 ^ 16 := by omega
  have o2 : (c.flags.toByte + c.id * 2 ^ 8) ||| c.idx * 2 ^ 16 =
      c.flags.toByte + c.id * 2 ^ 8 + c.idx * 2 ^ 16 :=
    calc (c.flags.toByte + c.id * 2 ^ 8) ||| c.idx * 2 ^ 16
        = c.idx * 2 ^ 16 ||| (c.flags.toByte + c.id * 2 ^ 8) := Nat.or_comm _ _
      _ = 2 ^ 16 * c.idx ||| (c.flags.toByte + c.id * 2 ^ 8) := by
          rw [Nat.mul_comm c.idx]
      _ = 2 ^ 16 * c.idx + (c.flags.toByte + c.id * 2 ^ 8) :=
          (Nat.mul_add_lt_is_or hlt c.idx).symm
      _ = c.flags.toByte + c.id * 2 ^ 8 + c.idx * 2 ^ 16 := by ring
  rw [o1, o2]
  norm_num

/-! ### C9: Cell pack/unpack round trip -/

/-- C9.  For every Cell c (with its fields in the u8 / u16 ranges of the
source types), Cell::from_u32(c.pack_as_u32()) equals c in kind tag, owner id
and link index, with hazard count 0; in particular the round trip is the
identity on every cell whose hazard count is 0. -/
theorem C9_cell_pack_unpack_roundtrip (c : Cell) (h1 : c.id < 256)
    (h2 : c.idx < 65536) :
    Cell.from_u32 c.pack_as_u32 = some { c with hazard_count := 0 } ∧
    (c.hazard_count = 0 → Cell.from_u32 c.pack_as_u32 = some c) := by
  have hf := CellFlag.toByte_lt c.flags
  have hpack := c.pack_as_u32_eq_add h1 h2
  have main : Cell.from_u32 c.pack_as_u32 = some { c with hazard_count := 0 } := by
    unfold Cell.from_u32
    have e255 : (0xff : Nat) = 2 ^ 8 - 1 := by norm_num
    have e65535 : (0xffff : Nat) = 2 ^ 16 - 1 := by norm_num
    have low : c.pack_as_u32 &&& 0xff = c.flags.toByte := by
      rw [e255, Nat.and_pow_two_sub_one_eq_mod, hpack]
      omega
    have mid : (c.pack_as_u32 >>> 8) &&& 0xff = c.id := by
      rw [e255, Nat.and_pow_two_sub_one_eq_mod, Nat.shiftRight_eq_div_pow,
        hpack]
      omega
    have high : (c.pack_as_u32 >>> 16) &&& 0xffff = c.idx := by
      rw [e65535, Nat.and_pow_two_sub_one_eq_mod, Nat.shiftRight_eq_div_pow,
        hpack]
      omega
    rw [low, mid, high, CellFlag.ofByte_toByte]
  refine ⟨main, fun h0 => ?_⟩
  rw [main]
  congr 1
  cases c
  simp_all

/-- C9 witness: the round trip at a concrete body-piece cell. -/
theorem C9_cell_pack_unpack_roundtrip_witness :
    Cell.from_u32 (Cell.make_body_piece 3 17).pack_as_u32 =
      some { Cell.make_body_piece 3 17 with hazard_count := 0 } ∧
    ((Cell.make_body_piece 3 17).hazard_count = 0 →
      Cell.from_u32 (Cell.make_body_piece 3 17).pack_as_u32 =
        some (Cell.make_body_piece 3 17)) :=
  C9_cell_pack_unpack_roundtrip (Cell.make_body_piece 3 17) (by decide)
    (by decide)

/-! ### C1: every enumerated joint move yields a consistent successor -/

/-- C1.  A failing input for the claim (and for the code's own consistency
assertion in simulate_with_moves): on a consistent 5x5 board, snakes 0 and 1
(equal lengths) move head-to-head onto the head cell of the alive snake 2,
which is not part of the simulated joint move.  Phase C finds no winner, the
on-another-snake guard does not fire (the shared cell is a head, not a
non-head body segment), and the shared cell - snake 2's head - is cleared.
The unique enumerated successor leaves snake 2 alive with an empty head
cell: assert_consistency returns false, so simulate_with_moves panics. -/
theorem C1_inconsistent_successor :
    boardHeadTarget.assert_consistency 100 = some true ∧
    simulate_product boardHeadTarget EvaluateMode.standard
      [(0, [Move.right]), (1, [Move.left])] 100 =
      some [[(0, Move.right), (1, Move.left)]] ∧
    boardHeadTarget.generate_state EvaluateMode.standard
      [(0, [Move.right]), (1, [Move.left])] 100 = some tblHeadTarget ∧
    (∃ bad,
      boardHeadTarget.evaluate_moves_with_state
        [(0, Move.right), (1, Move.left)] tblHeadTarget 100 = some bad ∧
      bad.assert_consistency 100 = some false ∧
      0 < bad.healths.getD 2 0 ∧ (bad.get_cell 12).is_empty = true) ∧
    simulate_with_moves boardHeadTarget EvaluateMode.standard
      [(0, [Move.right]), (1, [Move.left])] 100 = none := by
  refine ⟨by decide, by decide, rfl, ⟨_, rfl, by decide, by decide, by decide⟩,
    by decide⟩

/-! ### C5: what assert_consistency decides -/

/-- The ring walk exactly as the claim describes it, including the length
count: from a cell, follow links of body segments owned by the agent until
the head, summing 1 per plain cell, 2 per DoubleStacked, 3 per TripleStacked
(the head cell contributes its own multiplicity at the end). -/
def claim_walk (b : CellBoard) (sid head_index : Nat) :
    Nat → Nat → Option Nat
  | 0, _ => none
  | fuel + 1, index =>
    if index = head_index then
      some
        (if (b.get_cell index).is_triple_stacked_piece then 3
         else if (b.get_cell index).is_double_stacked_piece then 2 else 1)
    else
      let cell := b.get_cell index
      if cell.is_body_segment && (cell.get_snake_id == some sid) then
        match cell.get_next_index with
        | none => none
        | some j =>
          (claim_walk b sid head_index fuel j).map
            (fun n =>
              n +
                (if cell.is_triple_stacked_piece then 3
                 else if cell.is_double_stacked_piece then 2 else 1))
      else none

/-- The claim's per-agent ring property, length check included: the walk from
the head's tail pointer terminates at the head through cells owned by the
agent, and its multiplicity-weighted length equals lengths[i]. -/
def claim_ring_ok_len (b : CellBoard) (i : Nat) : Prop :=
  ∃ tail fuel,
    (b.get_cell (b.heads.getD i 0)).get_tail_position (b.heads.getD i 0) =
      some tail ∧
    claim_walk b i (b.heads.getD i 0) fuel tail = some (b.lengths.getD i 0)

/-- C5 exactly as claimed: assert_consistency returns true iff every alive
agent's ring walks back to the head through owned cells with the recorded
length. -/
def claimC5 (b : CellBoard) : Prop :=
  (∃ fuel, b.assert_consistency fuel = some true) ↔
    (∀ i < b.healths.length, 0 < b.healths.getD i 0 → claim_ring_ok_len b i)

/-- C5 counterexample: a single triple-stacked snake whose lengths entry is 7
passes assert_consistency (the code never checks the length), while the
claimed ring property fails (the walk counts 3). -/
theorem C5_counterexample : ¬ claimC5 boardBadLength := by
  intro h
  have L : ∃ fuel, boardBadLength.assert_consistency fuel = some true :=
    ⟨1, by decide⟩
  have R := h.mp L 0 (by decide) (by decide)
  obtain ⟨tail, fuel, ht, hw⟩ := R
  have htail : tail = 0 := by
    have h0 :
        (boardBadLength.get_cell (boardBadLength.heads.getD 0 0)).get_tail_position
          (boardBadLength.heads.getD 0 0) = some 0 := by decide
    rw [h0] at ht
    exact (Option.some.inj ht).symm
  subst htail
  have hhd : boardBadLength.heads.getD 0 0 = 0 := by decide
  rw [hhd] at hw
  cases fuel with
  | zero => simp [claim_walk] at hw
  | succ n =>
    rw [show claim_walk boardBadLength 0 0 (n + 1) 0 = some 3 from rfl] at hw
    have : (3 : Nat) = boardBadLength.lengths.getD 0 0 := Option.some.inj hw
    simp [boardBadLength] at this

/-- The spec-side ring relation of the amended claim (no length check): from
a cell one can follow links through body segments owned by the agent and
reach the head. -/
inductive WalksToHead (b : CellBoard) (sid head_index : Nat) : Nat → Prop where
  | base : WalksToHead b sid head_index head_index
  | step : ∀ i j, i ≠ head_index → (b.get_cell i).is_body_segment = true →
      (b.get_cell i).get_snake_id = some sid →
      (b.get_cell i).get_next_index = some j →
      WalksToHead b sid head_index j → WalksToHead b sid head_index i

/-- The amended per-agent ring property: tail pointer present and the walk
reaches the head (ownership checked, length not). -/
def ring_reaches_head (b : CellBoard) (i : Nat) : Prop :=
  ∃ tail,
    (b.get_cell (b.heads.getD i 0)).get_tail_position (b.heads.getD i 0) =
      some tail ∧
    WalksToHead b i (b.heads.getD i 0) tail

/-- Soundness of the fuel-bounded walk. -/
theorem consistency_walk_sound (b : CellBoard) (sid head_index : Nat) :
    ∀ fuel idx, b.consistency_walk sid head_index fuel idx = some true →
      WalksToHead b sid head_index idx := by
  intro fuel
  induction fuel with
  | zero => intro idx h; simp [CellBoard.consistency_walk] at h
  | succ n ih =>
    intro idx h
    rw [CellBoard.consistency_walk] at h
    by_cases he : idx = head_index
    · subst he; exact .base
    · rw [if_neg he] at h
      by_cases hb : (b.get_cell idx).is_body_segment = true
      · rw [hb] at h
        simp only [Bool.not_true, Bool.false_eq_true, if_false] at h
        by_cases hs : (b.get_cell idx).get_snake_id = some sid
        · rw [if_neg (by simp [hs])] at h
          cases hj : (b.get_cell idx).get_next_index with
          | none => rw [hj] at h; simp at h
          | some j =>
            rw [hj] at h
            exact .step idx j he hb hs hj (ih j h)
        · rw [if_pos (by simp [hs])] at h; simp at h
      · rw [eq_false_of_ne_true hb] at h
        simp at h

/-- The fuel-bounded walk is monotone in its fuel. -/
theorem consistency_walk_mono (b : CellBoard) (sid head_index : Nat) :
    ∀ fuel fuel2 idx r, fuel ≤ fuel2 →
      b.consistency_walk sid head_index fuel idx = some r →
      b.consistency_walk sid head_index fuel2 idx = some r := by
  intro fuel
  induction fuel with
  | zero => intro fuel2 idx r _ h; simp [CellBoard.consistency_walk] at h
  | succ n ih =>
    intro fuel2 idx r hle h
    obtain ⟨m, rfl⟩ : ∃ m, fuel2 = m + 1 := by
      cases fuel2 with
      | zero => omega
      | succ m => exact ⟨m, rfl⟩
    rw [CellBoard.consistency_walk] at h
    rw [CellBoard.consistency_walk]
    by_cases he : idx = head_index
    · rw [if_pos he] at h ⊢; exact h
    · rw [if_neg he] at h ⊢
      by_cases hb : (b.get_cell idx).is_body_segment = true
      · rw [hb] at h ⊢
        simp only [Bool.not_true, Bool.false_eq_true, if_false] at h ⊢
        by_cases hs : (b.get_cell idx).get_snake_id = some sid
        · rw [if_neg (by simp [hs])] at h ⊢
          cases hj : (b.get_cell idx).get_next_index with
          | none => rw [hj] at h; exact h
          | some j => rw [hj] at h; exact ih m j r (by omega) h
        · rw [if_pos (by simp [hs])] at h ⊢; exact h
      · rw [eq_false_of_ne_true hb] at h ⊢
        simp only [Bool.not_false, if_true] at h ⊢; exact h

/-- Completeness of the fuel-bounded walk against the spec relation. -/
theorem consistency_walk_complete (b : CellBoard) (sid head_index idx : Nat)
    (h : WalksToHead b sid head_index idx) :
    ∃ fuel, b.consistency_walk sid head_index fuel idx = some true := by
  induction h with
  | base =>
    exact ⟨1, by rw [CellBoard.consistency_walk, if_pos rfl]⟩
  | step i j hne hb hs hj _ ih =>
    obtain ⟨fuel, hw⟩ := ih
    refine ⟨fuel + 1, ?_⟩
    rw [CellBoard.consistency_walk, if_neg hne, hb]
    simp only [Bool.not_true, Bool.false_eq_true, if_false]
    rw [if_neg (by simp [hs]), hj]
    exact hw

/-- Soundness of the per-snake loop of assert_consistency. -/
theorem assert_consistency_aux_sound (b : CellBoard) (fuel : Nat) :
    ∀ l, b.assert_consistency_aux fuel l = some true →
      ∀ i ∈ l, 0 < b.healths.getD i 0 → ring_reaches_head b i := by
  intro l
  induction l with
  | nil => intro _ i hi; simp at hi
  | cons a rest ih =>
    intro h i hi halive
    rw [CellBoard.assert_consistency_aux] at h
    rcases List.mem_cons.mp hi with rfl | hmem
    · rw [if_pos halive] at h
      split at h
      · simp at h
      · rename_i tail ht
        split at h
        · simp at h
        · simp at h
        · rename_i hw
          exact ⟨tail, ht, consistency_walk_sound b i _ fuel tail hw⟩
    · by_cases ha : 0 < b.healths.getD a 0
      · rw [if_pos ha] at h
        split at h
        · simp at h
        · split at h
          · simp at h
          · simp at h
          · exact ih h i hmem halive
      · rw [if_neg ha] at h
        exact ih h i hmem halive

/-- The per-snake loop is monotone in the walk fuel. -/
theorem assert_consistency_aux_mono (b : CellBoard) :
    ∀ l fuel fuel2, fuel ≤ fuel2 →
      b.assert_consistency_aux fuel l = some true →
      b.assert_consistency_aux fuel2 l = some true := by
  intro l
  induction l with
  | nil => intro fuel fuel2 _ _; rw [CellBoard.assert_consistency_aux]
  | cons a rest ih =>
    intro fuel fuel2 hle h
    rw [CellBoard.assert_consistency_aux] at h ⊢
    by_cases ha : 0 < b.healths.getD a 0
    · rw [if_pos ha] at h ⊢
      split at h
      · simp at h
      · rename_i tail ht
        split at h
        · simp at h
        · simp at h
        · rename_i hw
          rw [consistency_walk_mono b a _ fuel fuel2 tail true hle hw]
          exact ih fuel fuel2 hle h
    · rw [if_neg ha] at h ⊢
      exact ih fuel fuel2 hle h

/-- Completeness of the per-snake loop: rings that reach the head yield
some true for a large enough fuel. -/
theorem assert_consistency_aux_complete (b : CellBoard) :
    ∀ l, (∀ i ∈ l, 0 < b.healths.getD i 0 → ring_reaches_head b i) →
      ∃ fuel, b.assert_consistency_aux fuel l = some true := by
  intro l
  induction l with
  | nil => exact fun _ => ⟨0, by rw [CellBoard.assert_consistency_aux]⟩
  | cons a rest ih =>
    intro hall
    obtain ⟨fuelR, hR⟩ := ih (fun i hi => hall i (List.mem_cons_of_mem a hi))
    by_cases ha : 0 < b.healths.getD a 0
    · obtain ⟨tail, ht, hwalk⟩ := hall a (List.mem_cons_self a rest) ha
      obtain ⟨fuelW, hW⟩ := consistency_walk_complete b a _ tail hwalk
      refine ⟨max fuelW fuelR, ?_⟩
      have hW2 := consistency_walk_mono b a _ fuelW (max fuelW fuelR) tail true
        (Nat.le_max_left _ _) hW
      have hR2 := assert_consistency_aux_mono b rest fuelR (max fuelW fuelR)
        (Nat.le_max_right _ _) hR
      rw [CellBoard.assert_consistency_aux, if_pos ha]
      simp only [ht, hW2]
      exact hR2
    · refine ⟨fuelR, ?_⟩
      rw [CellBoard.assert_consistency_aux, if_neg ha]
      exact hR

/-- C5 as amended.  assert_consistency returns true (for some fuel, i.e. the
Rust loop terminates with true) if and only if every alive agent's ring walks
from the tail pointer back to the head through body segments owned by that
agent: exactly the claim minus the length comparison, which the code never
performs. -/
theorem C5_assert_consistency_characterisation (b : CellBoard) :
    (∃ fuel, b.assert_consistency fuel = some true) ↔
      (∀ i < b.healths.length, 0 < b.healths.getD i 0 →
        ring_reaches_head b i) := by
  constructor
  · rintro ⟨fuel, h⟩ i hi halive
    exact assert_consistency_aux_sound b fuel _ h i
      (List.mem_range.mpr hi) halive
  · intro hall
    exact assert_consistency_aux_complete b _
      (fun i hi => hall i (List.mem_range.mp hi))

/-- C5 witness: the characterisation applied to the triple-stack board (its
ring is fine even though its recorded length is wrong). -/
theorem C5_assert_consistency_characterisation_witness :
    (∀ i < boardBadLength.healths.length,
      0 < boardBadLength.healths.getD i 0 → ring_reaches_head boardBadLength i) :=
  (C5_assert_consistency_characterisation boardBadLength).mp ⟨1, by decide⟩

/-! ### generate_one unfolding -/

/-- Evaluation of generate_one once its board-walking preconditions are
supplied: health, hazard, food and length are combined exactly as in the
source (saturating u8 subtraction is Nat truncated subtraction). -/
theorem generate_one_eq (b : CellBoard) (mode : EvaluateMode) (sid : Nat)
    (m : Move) (fuel nh nk t nt : Nat)
    (hh : 0 < b.healths.getD sid 0)
    (ht : b.old_tail_of sid = some t)
    (hnh : b.new_head_index mode sid m = some nh)
    (hnk : b.neck_of sid fuel = some nk)
    (hne : nh ≠ nk)
    (hnt : (if (b.get_cell t).is_stacked then some t
        else (b.get_cell t).get_next_index) = some nt) :
    b.generate_one mode sid m fuel =
      (if (if (b.get_cell nh).is_food then 100
          else if (b.get_cell nh).is_hazard then
            b.healths.getD sid 0 - 1 - b.hazard_damage
          else b.healths.getD sid 0 - 1) = 0 then some .dead
      else
        some (.alive
          ⟨sid, b.heads.getD sid 0, nh, t, nt,
            (if (b.get_cell nh).is_food then 100
             else if (b.get_cell nh).is_hazard then
               b.healths.getD sid 0 - 1 - b.hazard_damage
             else b.healths.getD sid 0 - 1),
            (b.get_cell nh).is_food,
            (if (b.get_cell nh).is_food then
              min (b.lengths.getD sid 0 + 1) 65535
             else b.lengths.getD sid 0)⟩)) := by
  rw [CellBoard.generate_one, if_neg (by omega)]
  simp only [ht, hnh, hnk, if_neg hne, hnt]

/-! ### C6: starvation, is_over, get_winner -/

/-- The number of alive ids equals the filter count used by is_over. -/
theorem length_filter_range_getD (l : List Nat) :
    ((List.range l.length).filter (fun i => l.getD i 0 ≠ 0)).length =
      (l.filter (fun h => h ≠ 0)).length := by
  induction l with
  | nil => rfl
  | cons a t ih =>
    rw [List.length_cons, List.range_succ_eq_map, List.filter_cons,
      List.filter_cons]
    have hmap :
        ((List.range t.length).map Nat.succ).filter
            (fun i => decide ((a :: t).getD i 0 ≠ 0)) =
          ((List.range t.length).filter
            (fun i => decide (t.getD i 0 ≠ 0))).map Nat.succ := by
      rw [List.filter_map]
      congr 1
    by_cases ha : a = 0
    · subst ha
      simp only [List.getD_cons_zero]
      rw [hmap]
      simpa using ih
    · simp only [List.getD_cons_zero]
      rw [hmap]
      simp only [ne_eq, ha, not_false_eq_true, decide_eq_true_eq]
      simpa [ha] using ih

/-- alive_ids counts exactly the nonzero healths. -/
theorem alive_ids_length (b : CellBoard) :
    b.alive_ids.length = (b.healths.filter (fun h => h ≠ 0)).length :=
  length_filter_range_getD b.healths

/-- C6 counterexample: with healths [0, 50, 50, 0] the claim demands
get_winner = none (you are dead and two others remain), but the code returns
the first alive id. -/
theorem C6_counterexample :
    boardYouDead.healths.getD 0 0 = 0 ∧
    boardYouDead.alive_snake_count = 2 ∧
    boardYouDead.get_winner = some 1 ∧
    boardYouDead.get_winner ≠ none := by
  refine ⟨by decide, by decide, by decide, by decide⟩

/-- C6 as amended.  (1) An agent at health 1 whose move stays on the board
and lands on a non-food, non-hazard cell dies of starvation.  (2) When
healths[0] = 0, is_over is true.  (3) When the game is over, get_winner
returns the lowest alive id (not None; None only when nobody is alive), and
in particular (4) the unique remaining agent when exactly one is alive. -/
theorem C6_starvation_over_winner :
    (∀ (b : CellBoard) (mode : EvaluateMode) (sid : Nat) (m : Move)
      (fuel nh nk t nt : Nat),
      b.healths.getD sid 0 = 1 →
      b.old_tail_of sid = some t →
      b.new_head_index mode sid m = some nh →
      b.neck_of sid fuel = some nk →
      nh ≠ nk →
      (if (b.get_cell t).is_stacked then some t
        else (b.get_cell t).get_next_index) = some nt →
      (b.get_cell nh).is_food = false →
      (b.get_cell nh).is_hazard = false →
      b.generate_one mode sid m fuel = some .dead) ∧
    (∀ b : CellBoard, b.healths.getD 0 0 = 0 → b.is_over = true) ∧
    (∀ b : CellBoard, b.is_over = true → b.get_winner = b.alive_ids.head?) ∧
    (∀ (b : CellBoard) (i : Nat), b.alive_ids = [i] → b.get_winner = some i) := by
  have hwinner : ∀ b : CellBoard, b.is_over = true →
      b.get_winner = b.alive_ids.head? := by
    intro b h
    rw [CellBoard.get_winner, if_pos h]
  refine ⟨?_, ?_, hwinner, ?_⟩
  · intro b mode sid m fuel nh nk t nt hh ht hnh hnk hne hnt hfood hhaz
    rw [generate_one_eq b mode sid m fuel nh nk t nt (by omega) ht hnh hnk hne
      hnt]
    rw [hfood, hhaz]
    simp only [Bool.false_eq_true, if_false]
    rw [if_pos (by omega)]
  · intro b h
    simp only [CellBoard.is_over, h, beq_self_eq_true, Bool.true_or]
  · intro b i h
    have hlen : (b.healths.filter (fun h => h ≠ 0)).length = 1 := by
      rw [← alive_ids_length, h]
      rfl
    have hover : b.is_over = true := by
      rw [CellBoard.is_over, Bool.or_eq_true]
      right
      exact decide_eq_true (by omega)
    rw [hwinner b hover, h]
    rfl

/-- C6 witness: the amended statement at concrete inputs. -/
theorem C6_starvation_over_winner_witness :
    boardYouDead.is_over = true ∧
    boardYouDead.get_winner = boardYouDead.alive_ids.head? := by
  refine ⟨C6_starvation_over_winner.2.1 boardYouDead (by decide), ?_⟩
  exact C6_starvation_over_winner.2.2.1 boardYouDead
    (C6_starvation_over_winner.2.1 boardYouDead (by decide))

/-! ### C7: best-fit board selection -/

/-- The declared width of each specialization (spec-side data). -/
def BestKind.declWidth : BestKind → Nat
  | .smallExact => 7
  | .tiny => 7
  | .mediumExact => 11
  | .standard => 11
  | .largestU8 => 15
  | .largeExact => 19
  | .arcadeMaze => 19
  | .large => 25
  | .silly => 50

/-- The declared height of each specialization (spec-side data). -/
def BestKind.declHeight : BestKind → Nat
  | .smallExact => 7
  | .tiny => 7
  | .mediumExact => 11
  | .standard => 11
  | .largestU8 => 15
  | .largeExact => 19
  | .arcadeMaze => 21
  | .large => 25
  | .silly => 50

/-- The seven specializations the claim enumerates, smallest first. -/
def claimTiers : List BestKind :=
  [.tiny, .standard, .largestU8, .largeExact, .arcadeMaze, .large, .silly]

/-- A specialization fits a snapshot when the declared width, height and
snake count all fit (claim-side). -/
def claimFits (k : BestKind) (w h n : Nat) : Bool :=
  w ≤ k.declWidth && h ≤ k.declHeight && n ≤ k.maxSnakes

/-- The selection rule exactly as the claim states it: the smallest of the
seven specializations that fits width, height and snake count, preferring an
exact-size specialization when the declared dimensions match one. -/
def claimed_best_cell_board (w h n : Nat) : Option BestKind :=
  if w = 7 ∧ h = 7 ∧ n ≤ 4 then some .smallExact
  else if w = 11 ∧ h = 11 ∧ n ≤ 4 then some .mediumExact
  else if w = 19 ∧ h = 19 ∧ n ≤ 4 then some .largeExact
  else claimTiers.find? (fun k => claimFits k w h n)

/-- C7 counterexample: an 11x15 snapshot with two snakes.  The claim selects
the 15x15 specialization (the smallest that fits both dimensions); the code
dispatches on width alone, picks the 11x11 board and fails its size check,
so to_best_cell_board returns an error instead of a fitting board. -/
theorem C7_counterexample :
    claimed_best_cell_board 11 15 2 = some BestKind.largestU8 ∧
    claimFits BestKind.largestU8 11 15 2 = true ∧
    to_best_cell_board 11 15 2 =
      some (Except.error "game size doesn't fit in the given board size") ∧
    to_best_cell_board 11 15 2 ≠ some (Except.ok BestKind.largestU8) := by
  refine ⟨by decide, by decide, rfl, fun hcon => ?_⟩
  exact Except.noConfusion (Option.some.inj hcon)

/-- The amended dispatch table: branch predicates in source order.  Height
takes part only in the three exact branches and the Tiny branch; ArcadeMaze
is never selected. -/
def amendedTiers (w h n : Nat) : List (BestKind × Bool) :=
  [(.smallExact, decide (w = 7 ∧ h = 7 ∧ n ≤ 4)),
   (.tiny, decide (w ≤ 7 ∧ h ≤ 7 ∧ n ≤ 4)),
   (.mediumExact, decide (w = 11 ∧ h = 11 ∧ n ≤ 4)),
   (.standard, decide (w ≤ 11 ∧ n ≤ 4)),
   (.largestU8, decide (w ≤ 15 ∧ n ≤ 8)),
   (.largeExact, decide (w = 19 ∧ h = 19 ∧ n ≤ 4)),
   (.large, decide (w ≤ 25 ∧ n ≤ 8)),
   (.silly, decide (w ≤ 50 ∧ n ≤ 16))]

/-- The amended selection: first tier whose predicate holds, then the
conversion size / snake-count check of that tier (which can fail, because
height is ignored by the non-exact predicates). -/
def amended_best_cell_board (w h n : Nat) : Option (Except String BestKind) :=
  ((amendedTiers w h n).find? (fun t => t.2)).map
    (fun t => convertSizeCheck t.1 w h n)

/-- C7 as amended.  to_best_cell_board is the first-match dispatch over the
amended tier table: exact 7x7, width and height at most 7, exact 11x11, then
width-only tiers 11 / 15 / exact 19x19 / 25 / 50 with their snake caps; the
selected tier's conversion still fails when width*height exceeds its cell
count; no snapshot ever selects ArcadeMaze. -/
theorem C7_best_cell_board_amended (w h n : Nat) :
    to_best_cell_board w h n = amended_best_cell_board w h n := by
  rw [to_best_cell_board, amended_best_cell_board, amendedTiers]
  by_cases h1 : w = 7 ∧ h = 7 ∧ n ≤ 4
  · rw [if_pos h1, List.find?_cons_of_pos _ (by simpa using h1)]; rfl
  · rw [if_neg h1, List.find?_cons_of_neg _ (by simpa using h1)]
    by_cases h2 : w ≤ 7 ∧ h ≤ 7 ∧ n ≤ 4
    · rw [if_pos h2, List.find?_cons_of_pos _ (by simpa using h2)]; rfl
    · rw [if_neg h2, List.find?_cons_of_neg _ (by simpa using h2)]
      by_cases h3 : w = 11 ∧ h = 11 ∧ n ≤ 4
      · rw [if_pos h3, List.find?_cons_of_pos _ (by simpa using h3)]; rfl
      · rw [if_neg h3, List.find?_cons_of_neg _ (by simpa using h3)]
        by_cases h4 : w ≤ 11 ∧ n ≤ 4
        · rw [if_pos h4, List.find?_cons_of_pos _ (by simpa using h4)]; rfl
        · rw [if_neg h4, List.find?_cons_of_neg _ (by simpa using h4)]
          by_cases h5 : w ≤ 15 ∧ n ≤ 8
          · rw [if_pos h5, List.find?_cons_of_pos _ (by simpa using h5)]; rfl
          · rw [if_neg h5, List.find?_cons_of_neg _ (by simpa using h5)]
            by_cases h6 : w = 19 ∧ h = 19 ∧ n ≤ 4
            · rw [if_pos h6, List.find?_cons_of_pos _ (by simpa using h6)]; rfl
            · rw [if_neg h6, List.find?_cons_of_neg _ (by simpa using h6)]
              by_cases h7 : w ≤ 25 ∧ n ≤ 8
              · rw [if_pos h7, List.find?_cons_of_pos _ (by simpa using h7)]
                rfl
              · rw [if_neg h7, List.find?_cons_of_neg _ (by simpa using h7)]
                by_cases h8 : w ≤ 50 ∧ n ≤ 16
                · rw [if_pos h8,
                    List.find?_cons_of_pos _ (by simpa using h8)]
                  rfl
                · rw [if_neg h8,
                    List.find?_cons_of_neg _ (by simpa using h8)]
                  rfl

/-! ### C8: mode-mismatch handling at conversion time -/

/-- C8 counterexample: as_wrapped_cell_board on a non-wrapped snapshot does
not return an error value - it panics (none), contradicting the claim that
mode mismatches are returned as errors. -/
theorem C8_counterexample :
    gameStandard.ruleset_name ≠ "wrapped" ∧
    as_wrapped_cell_board gameStandard (fun _ => none) 9 4 = none ∧
    (∀ e, as_wrapped_cell_board gameStandard (fun _ => none) 9 4 ≠
      some (Except.error e)) := by
  refine ⟨by decide, rfl, fun e hcon => ?_⟩
  rw [show as_wrapped_cell_board gameStandard (fun _ => none) 9 4 = none from
    rfl] at hcon
  exact Option.noConfusion hcon

/-- C8 as amended.  The Standard constructor returns an error (does not
panic) on a wrapped snapshot; the wrapped conversion entry point
as_wrapped_cell_board panics (does not return) on a non-wrapped snapshot,
and performs the core conversion - which has no mode check of its own - on a
wrapped one. -/
theorem C8_mode_mismatch :
    (∀ (g : GameW) (ids : String → Option Nat) (bs ms : Nat),
      g.ruleset_name = "wrapped" →
      standard_convert_from_game g ids bs ms =
        some (Except.error "Wrapped games are not supported")) ∧
    (∀ (g : GameW) (ids : String → Option Nat) (bs ms : Nat),
      g.ruleset_name ≠ "wrapped" →
      as_wrapped_cell_board g ids bs ms = none) ∧
    (∀ (g : GameW) (ids : String → Option Nat) (bs ms : Nat),
      g.ruleset_name = "wrapped" →
      as_wrapped_cell_board g ids bs ms = convert_from_game g ids bs ms) := by
  refine ⟨?_, ?_, ?_⟩
  · intro g ids bs ms hw
    rw [standard_convert_from_game, if_pos hw]
  · intro g ids bs ms hw
    rw [as_wrapped_cell_board, if_neg]
    simp [GameW.is_wrapped, hw]
  · intro g ids bs ms hw
    rw [as_wrapped_cell_board, if_pos]
    simp [GameW.is_wrapped, hw]

/-- C8 witness: the amended statement at the two concrete snapshots. -/
theorem C8_mode_mismatch_witness :
    standard_convert_from_game gameWrapped (fun _ => none) 9 4 =
      some (Except.error "Wrapped games are not supported") ∧
    as_wrapped_cell_board gameStandard (fun _ => none) 9 4 = none :=
  ⟨C8_mode_mismatch.1 gameWrapped (fun _ => none) 9 4 rfl,
    C8_mode_mismatch.2.1 gameStandard (fun _ => none) 9 4 (by decide)⟩

/-! ### C2: head-to-head resolution -/

/-- getD after set, spelled out. -/
theorem getD_set {α : Type} (l : List α) (i j : Nat) (x d : α) :
    (l.set i x).getD j d = if i = j ∧ j < l.length then x else l.getD j d := by
  induction l generalizing i j with
  | nil => simp [List.set]
  | cons a t ih =>
    cases i with
    | zero =>
      cases j with
      | zero => simp
      | succ j => simp
    | succ i =>
      cases j with
      | zero => simp
      | succ j =>
        simp only [List.set, List.getD_cons_succ, List.length_cons, ih]
        by_cases hij : i = j
        · subst hij; simp
        · simp [hij]

/-- A true mark survives the non-winner marking fold. -/
theorem mark_fold_keeps_true (wid : Option Nat) :
    ∀ (group : List AliveMoveResult) (tk : List Bool) (j : Nat),
      tk.getD j false = true →
      (group.foldl
        (fun tk x => if wid ≠ some x.id then tk.set x.id true else tk)
        tk).getD j false = true := by
  intro group
  induction group with
  | nil => intro tk j h; exact h
  | cons y ys ih =>
    intro tk j h
    rw [List.foldl_cons]
    by_cases hc : wid ≠ some y.id
    · rw [if_pos hc]
      refine ih _ j ?_
      rw [getD_set]
      by_cases hj : y.id = j ∧ j < tk.length
      · rw [if_pos hj]
      · rw [if_neg hj]; exact h
    · rw [if_neg hc]
      exact ih _ j h

/-- The marking fold preserves the list length. -/
theorem mark_fold_length (wid : Option Nat) :
    ∀ (group : List AliveMoveResult) (tk : List Bool),
      (group.foldl
        (fun tk x => if wid ≠ some x.id then tk.set x.id true else tk)
        tk).length = tk.length := by
  intro group
  induction group with
  | nil => intro tk; rfl
  | cons y ys ih =>
    intro tk
    rw [List.foldl_cons]
    by_cases hc : wid ≠ some y.id
    · rw [if_pos hc, ih, List.length_set]
    · rw [if_neg hc, ih]

/-- Every group member not protected by the winner check ends up marked. -/
theorem mark_fold_marks (wid : Option Nat) :
    ∀ (group : List AliveMoveResult) (tk : List Bool) (x : AliveMoveResult),
      x ∈ group → wid ≠ some x.id → x.id < tk.length →
      (group.foldl
        (fun tk x => if wid ≠ some x.id then tk.set x.id true else tk)
        tk).getD x.id false = true := by
  intro group
  induction group with
  | nil => intro tk x hx; simp at hx
  | cons y ys ih =>
    intro tk x hx hw hlt
    rw [List.foldl_cons]
    rcases List.mem_cons.mp hx with rfl | hmem
    · rw [if_pos hw]
      refine mark_fold_keeps_true wid ys _ x.id ?_
      rw [getD_set, if_pos ⟨rfl, hlt⟩]
    · by_cases hc : wid ≠ some y.id
      · rw [if_pos hc]
        exact ih _ x hmem hw (by rw [List.length_set]; exact hlt)
      · rw [if_neg hc]
        exact ih _ x hmem hw hlt

/-- max_by_key over a nonempty group always yields a value. -/
theorem max_by_len_isSome (b : CellBoard) :
    ∀ (group : List AliveMoveResult), group ≠ [] →
      (b.max_by_len group).isSome = true := by
  have step : ∀ (l : List AliveMoveResult) (a : AliveMoveResult),
      (l.foldl
        (fun acc x =>
          match acc with
          | none => some x
          | some best =>
            if b.get_length best.id ≤ b.get_length x.id then some x
            else some best)
        (some a)).isSome = true := by
    intro l
    induction l with
    | nil => intro a; rfl
    | cons x xs ih =>
      intro a
      rw [List.foldl_cons]
      by_cases hc : b.get_length a.id ≤ b.get_length x.id
      · simp only [if_pos hc]; exact ih x
      · simp only [if_neg hc]; exact ih a
  intro group hne
  cases group with
  | nil => exact absurd rfl hne
  | cons a l =>
    rw [CellBoard.max_by_len, List.foldl_cons]
    exact step l a

/-- C2 counterexample: two equal-length snakes collide head-to-head on a
third snake's triple-stacked cell.  In the spec's vocabulary the shared cell
is a body segment of an agent outside the group, so the claim says the cell
is left intact; the code's guard additionally requires the cell not to be a
head, a triple stack counts as a head, and the cell is cleared. -/
theorem C2_counterexample :
    (boardTripleTarget.get_cell 12).is_body_segment = true ∧
    (boardTripleTarget.get_cell 12).get_snake_id = some 2 ∧
    (grpTriple.map (fun i => i.id)).contains 2 = false ∧
    boardTripleTarget.winner_of 12 grpTriple = none ∧
    ((boardTripleTarget.resolve_group (List.replicate 3 false) 12
        grpTriple).1.get_cell 12).is_empty = true ∧
    (boardTripleTarget.resolve_group (List.replicate 3 false) 12
        grpTriple).1 ≠ boardTripleTarget := by
  refine ⟨by decide, by decide, by decide, by decide, by decide, by decide⟩

/-- C2 as amended.  For every head-to-head group of two or more alive
results on the same cell: there is a winner iff exactly one group member has
the maximum length and the shared cell is not a NON-HEAD body segment
(BodyPiece or DoubleStacked) of an agent outside the group - a TripleStacked
cell counts as a head and is not protected; every non-winner is marked for
death; when there is no winner and the shared cell is not such a third-party
body segment it is cleared to Empty, and when it is, the board is left
untouched (as it is when there is a winner). -/
theorem C2_head_to_head_resolution (b : CellBoard) (tk : List Bool)
    (key : Nat) (group : List AliveMoveResult)
    (hg : 2 ≤ group.length)
    (hid : ∀ x ∈ group, x.id < tk.length) :
    ((b.winner_of key group).isSome = true ↔
      ((group.filter
          (fun x => b.get_length x.id == b.group_max_len group)).length = 1 ∧
        b.on_another_snake key group = false)) ∧
    (∀ x ∈ group,
      (b.winner_of key group).map (fun w => w.id) ≠ some x.id →
      (b.resolve_group tk key group).2.getD x.id false = true) ∧
    (b.winner_of key group = none → b.on_another_snake key group = false →
      (b.resolve_group tk key group).1 = b.cell_remove key) ∧
    (b.on_another_snake key group = true →
      (b.resolve_group tk key group).1 = b) ∧
    ((b.winner_of key group).isSome = true →
      (b.resolve_group tk key group).1 = b) := by
  have hne : group ≠ [] := by
    intro h; rw [h] at hg; simp at hg
  refine ⟨?_, ?_, ?_, ?_, ?_⟩
  · rw [CellBoard.winner_of]
    by_cases hm : b.multiple_max group = true
    · rw [if_pos (by rw [hm]; simp)]
      simp only [Option.isSome_none, Bool.false_eq_true, false_iff]
      intro hcon
      rw [CellBoard.multiple_max] at hm
      simp only [bne_iff_ne, ne_eq] at hm
      exact hm hcon.1
    · by_cases ho : b.on_another_snake key group = true
      · rw [if_pos (by rw [ho]; simp)]
        simp only [Option.isSome_none, Bool.false_eq_true, false_iff]
        intro hcon
        rw [ho] at hcon
        exact Bool.true_eq_false ▸ hcon.2 ▸ rfl
      · rw [if_neg (by
          rw [Bool.or_eq_true]
          push_neg
          exact ⟨hm, ho⟩)]
        rw [max_by_len_isSome b group hne]
        simp only [true_iff]
        constructor
        · rw [CellBoard.multiple_max] at hm
          simpa using hm
        · cases hob : b.on_another_snake key group
          · rfl
          · exact absurd hob ho
  · intro x hx hw
    rw [CellBoard.resolve_group]
    exact mark_fold_marks _ group tk x hx hw (hid x hx)
  · intro hwin ho
    rw [CellBoard.resolve_group]
    simp only [hwin, Option.isNone_none, ho, Bool.not_false, Bool.and_self,
      if_pos]
  · intro ho
    rw [CellBoard.resolve_group]
    simp [ho]
  · intro hwin
    rw [CellBoard.resolve_group]
    have : (b.winner_of key group).isNone = false := by
      cases hv : b.winner_of key group
      · rw [hv] at hwin; simp at hwin
      · rfl
    simp [this]

/-- C2 witness: the amended head-to-head resolution applied to the concrete
triple-stack collision. -/
theorem C2_head_to_head_resolution_witness :
    (boardTripleTarget.resolve_group (List.replicate 3 false) 12
        grpTriple).1 = boardTripleTarget.cell_remove 12 :=
  (C2_head_to_head_resolution boardTripleTarget (List.replicate 3 false) 12
      grpTriple (by decide) (by decide)).2.2.1 (by decide) (by decide)

/-! ### C3: generate_state health, food and starvation accounting -/

/-- C3.  For an alive agent whose candidate direction resolves to an
on-board (wrapped, in Wrapped mode) cell that is not its neck: on food the
result records new_health = 100 and new_length = old_length + 1; otherwise
new_health is max(0, old_health - 1 - (hazard_damage if the cell is a
hazard else 0)) computed by saturating subtraction, and the result is Dead
by starvation exactly when that value is 0. -/
theorem C3_generate_state_accounting (b : CellBoard) (mode : EvaluateMode)
    (sid : Nat) (m : Move) (fuel nh nk t nt : Nat)
    (hh : 0 < b.healths.getD sid 0)
    (ht : b.old_tail_of sid = some t)
    (hnh : b.new_head_index mode sid m = some nh)
    (hnk : b.neck_of sid fuel = some nk)
    (hne : nh ≠ nk)
    (hnt : (if (b.get_cell t).is_stacked then some t
        else (b.get_cell t).get_next_index) = some nt)
    (hlen : b.lengths.getD sid 0 < 65535) :
    ((b.get_cell nh).is_food = true →
      b.generate_one mode sid m fuel =
        some (.alive ⟨sid, b.heads.getD sid 0, nh, t, nt, 100, true,
          b.lengths.getD sid 0 + 1⟩)) ∧
    ((b.get_cell nh).is_food = false →
      (((b.healths.getD sid 0 - 1 -
          (if (b.get_cell nh).is_hazard then b.hazard_damage else 0) : Nat) :
            Int) =
        max 0 ((b.healths.getD sid 0 : Int) - 1 -
          (if (b.get_cell nh).is_hazard then (b.hazard_damage : Int)
            else 0)) ∧
      (b.generate_one mode sid m fuel = some .dead ↔
        b.healths.getD sid 0 - 1 -
          (if (b.get_cell nh).is_hazard then b.hazard_damage else 0) = 0) ∧
      (b.healths.getD sid 0 - 1 -
          (if (b.get_cell nh).is_hazard then b.hazard_damage else 0) ≠ 0 →
        b.generate_one mode sid m fuel =
          some (.alive ⟨sid, b.heads.getD sid 0, nh, t, nt,
            b.healths.getD sid 0 - 1 -
              (if (b.get_cell nh).is_hazard then b.hazard_damage else 0),
            false, b.lengths.getD sid 0⟩)))) := by
  rw [generate_one_eq b mode sid m fuel nh nk t nt hh ht hnh hnk hne hnt]
  constructor
  · intro hf
    rw [hf]
    simp only [if_true]
    rw [if_neg (by omega), Nat.min_eq_left (by omega)]
  · intro hf
    rw [hf]
    simp only [Bool.false_eq_true, if_false]
    by_cases hz : (b.get_cell nh).is_hazard = true
    · rw [hz]
      simp only [if_true]
      refine ⟨by omega, ?_, ?_⟩
      · constructor
        · intro hdead
          by_cases h0 : b.healths.getD sid 0 - 1 - b.hazard_damage = 0
          · exact h0
          · rw [if_neg h0] at hdead
            exact absurd (Option.some.inj hdead) (by intro hx; cases hx)
        · intro h0
          rw [if_pos h0]
      · intro h0
        rw [if_neg h0]
    · rw [eq_false_of_ne_true hz]
      simp only [Bool.false_eq_true, if_false, Nat.sub_zero]
      refine ⟨by omega, ?_, ?_⟩
      · constructor
        · intro hdead
          by_cases h0 : b.healths.getD sid 0 - 1 = 0
          · exact h0
          · rw [if_neg h0] at hdead
            exact absurd (Option.some.inj hdead) (by intro hx; cases hx)
        · intro h0
          rw [if_pos h0]
      · intro h0
        rw [if_neg h0]

/-- C3 witness: snake 0 of the flanking board moving Right (no food, no
hazard, health 50, length 2). -/
theorem C3_generate_state_accounting_witness :
    boardHeadTarget.generate_one EvaluateMode.standard 0 Move.right 100 =
      some (.alive ⟨0, boardHeadTarget.heads.getD 0 0, 12, 10, 11,
        boardHeadTarget.healths.getD 0 0 - 1 -
          (if (boardHeadTarget.get_cell 12).is_hazard then
            boardHeadTarget.hazard_damage else 0),
        false, boardHeadTarget.lengths.getD 0 0⟩) :=
  ((C3_generate_state_accounting boardHeadTarget EvaluateMode.standard 0
      Move.right 100 12 10 10 11 (by decide) (by decide) (by decide)
      (by decide) (by decide) (by decide) (by decide)).2
    (by decide)).2.2 (by decide)

/-! ### C10: hazard layout is invariant under evaluation -/

/-- Two boards carry the same hazard count on every cell. -/
def hazard_agrees (b b2 : CellBoard) : Prop :=
  ∀ j, (b2.get_cell j).hazard_count = (b.get_cell j).hazard_count

theorem hazard_agrees_refl (b : CellBoard) : hazard_agrees b b :=
  fun _ => rfl

theorem hazard_agrees_trans {a b c : CellBoard} (h1 : hazard_agrees a b)
    (h2 : hazard_agrees b c) : hazard_agrees a c :=
  fun j => (h2 j).trans (h1 j)

/-- Writing back a cell whose hazard count matches the old cell's preserves
every hazard count. -/
theorem hazard_agrees_set_cell (b : CellBoard) (i : Nat) (c : Cell)
    (hc : c.hazard_count = (b.get_cell i).hazard_count) :
    hazard_agrees b (b.set_cell i c) := by
  intro j
  show ((b.cells.set i c).getD j Cell.emptyCell).hazard_count = _
  rw [getD_set]
  by_cases hij : i = j ∧ j < b.cells.length
  · rw [if_pos hij, hc, hij.1]
  · rw [if_neg hij]
    rfl

theorem hazard_agrees_cell_remove (b : CellBoard) (i : Nat) :
    hazard_agrees b (b.cell_remove i) :=
  hazard_agrees_set_cell b i _ rfl

theorem hazard_agrees_set_cell_head (b : CellBoard) (i sid nxt : Nat) :
    hazard_agrees b (b.set_cell_head i sid nxt) :=
  hazard_agrees_set_cell b i _ rfl

theorem hazard_agrees_set_cell_body_piece (b : CellBoard) (i sid nxt : Nat) :
    hazard_agrees b (b.set_cell_body_piece i sid nxt) :=
  hazard_agrees_set_cell b i _ rfl

theorem hazard_agrees_set_cell_double_stacked (b : CellBoard)
    (i sid nxt : Nat) : hazard_agrees b (b.set_cell_double_stacked i sid nxt) :=
  hazard_agrees_set_cell b i _ rfl

/-- The per-agent slots do not carry hazards. -/
theorem hazard_agrees_kill (b : CellBoard) (sid : Nat) :
    hazard_agrees b (b.kill sid) :=
  fun _ => rfl

theorem hazard_agrees_killRemoveLoop :
    ∀ (fuel : Nat) (b : CellBoard) (cur : Option Nat) (out : CellBoard),
      CellBoard.killRemoveLoop fuel b cur = some out → hazard_agrees b out := by
  intro fuel
  induction fuel with
  | zero =>
    intro b cur out h
    cases cur with
    | none =>
      rw [CellBoard.killRemoveLoop] at h
      rw [Option.some.inj h]
      exact hazard_agrees_refl out
    | some i => simp [CellBoard.killRemoveLoop] at h
  | succ n ih =>
    intro b cur out h
    cases cur with
    | none =>
      rw [CellBoard.killRemoveLoop] at h
      rw [Option.some.inj h]
      exact hazard_agrees_refl out
    | some i =>
      rw [CellBoard.killRemoveLoop] at h
      exact hazard_agrees_trans (hazard_agrees_cell_remove b i) (ih _ _ _ h)

theorem hazard_agrees_kill_and_remove (b : CellBoard) (sid fuel : Nat)
    (out : CellBoard) (h : b.kill_and_remove sid fuel = some out) :
    hazard_agrees b out := by
  rw [CellBoard.kill_and_remove] at h
  cases hk : CellBoard.killRemoveLoop fuel b
      ((b.get_cell (b.heads.getD sid 0)).get_tail_position
        (b.heads.getD sid 0)) with
  | none => rw [hk] at h; exact Option.noConfusion h
  | some b2 =>
    rw [hk] at h
    rw [← Option.some.inj h]
    exact hazard_agrees_trans (hazard_agrees_killRemoveLoop fuel b _ b2 hk)
      (hazard_agrees_kill b2 sid)

theorem hazard_agrees_phaseA_step (fuel : Nat)
    (tbl : Nat → Move → SinglePlayerMoveResult) (b : CellBoard)
    (idm : Nat × Move) (out : CellBoard)
    (h : CellBoard.phaseA_step fuel tbl b idm = some out) :
    hazard_agrees b out := by
  rw [CellBoard.phaseA_step] at h
  cases htbl : tbl idm.1 idm.2 with
  | dead =>
    rw [htbl] at h
    exact hazard_agrees_kill_and_remove b idm.1 fuel out h
  | alive a =>
    rw [htbl] at h
    rw [← Option.some.inj h]
    by_cases hd : (b.get_cell a.old_tail).is_double_stacked_piece = true
    · rw [if_pos hd]
      by_cases hf : a.ate_food = true
      · rw [if_pos hf]
        refine hazard_agrees_trans ?_
          (hazard_agrees_set_cell_double_stacked _ a.new_tail a.id _)
        exact hazard_agrees_trans
          (hazard_agrees_set_cell_body_piece b a.old_tail a.id _)
          (fun _ => rfl)
      · rw [if_neg hf]
        exact hazard_agrees_trans
          (hazard_agrees_set_cell_body_piece b a.old_tail a.id _)
          (fun _ => rfl)
    · rw [if_neg hd]
      have hB : hazard_agrees b
          ((b.cell_remove a.old_tail).set_cell_head a.old_head a.id
            a.new_tail) :=
        hazard_agrees_trans (hazard_agrees_cell_remove b a.old_tail)
          (hazard_agrees_set_cell_head _ a.old_head a.id a.new_tail)
      by_cases hf : a.ate_food = true
      · rw [if_pos hf]
        refine hazard_agrees_trans ?_
          (hazard_agrees_set_cell_double_stacked _ a.new_tail a.id _)
        exact hazard_agrees_trans hB (fun _ => rfl)
      · rw [if_neg hf]
        exact hazard_agrees_trans hB (fun _ => rfl)

theorem hazard_agrees_foldlM
    (step : CellBoard → (Nat × Move) → Option CellBoard)
    (hstep : ∀ b idm out, step b idm = some out → hazard_agrees b out) :
    ∀ (l : List (Nat × Move)) (b out : CellBoard),
      List.foldlM step b l = some out → hazard_agrees b out := by
  intro l
  induction l with
  | nil =>
    intro b out h
    rw [List.foldlM] at h
    rw [Option.some.inj h]
    exact hazard_agrees_refl out
  | cons x xs ih =>
    intro b out h
    rw [List.foldlM] at h
    cases hs : step b x with
    | none => rw [hs] at h; exact Option.noConfusion h
    | some b1 =>
      rw [hs] at h
      exact hazard_agrees_trans (hstep b x b1 hs) (ih b1 out h)

theorem hazard_agrees_resolve_group (b : CellBoard) (tk : List Bool)
    (key : Nat) (group : List AliveMoveResult) :
    hazard_agrees b (b.resolve_group tk key group).1 := by
  rw [CellBoard.resolve_group]
  by_cases hc : ((b.winner_of key group).isNone &&
      !(b.on_another_snake key group)) = true
  · simp only [hc, if_true]
    exact hazard_agrees_cell_remove b key
  · simp only [hc, if_false]
    exact hazard_agrees_refl b

theorem hazard_agrees_phaseC (b : CellBoard) (moves : List (Nat × Move))
    (tbl : Nat → Move → SinglePlayerMoveResult) (tk : List Bool) :
    hazard_agrees b (CellBoard.phaseC b moves tbl tk).1 := by
  rw [CellBoard.phaseC]
  generalize CellBoard.alive_results moves tbl = results
  generalize CellBoard.dedupKeys (results.map (fun a => a.new_head)) [] = keys
  have main : ∀ (keys : List Nat) (bt : CellBoard × List Bool),
      hazard_agrees bt.1
        (keys.foldl
          (fun bt key =>
            if 2 ≤ (results.filter (fun a => a.new_head == key)).length then
              CellBoard.resolve_group bt.1 bt.2 key
                (results.filter (fun a => a.new_head == key))
            else bt)
          bt).1 := by
    intro keys
    induction keys with
    | nil => intro bt; exact hazard_agrees_refl bt.1
    | cons k ks ih =>
      intro bt
      rw [List.foldl_cons]
      by_cases hc :
          2 ≤ (results.filter (fun a => a.new_head == k)).length
      · rw [if_pos hc]
        exact hazard_agrees_trans
          (hazard_agrees_resolve_group bt.1 bt.2 k _) (ih _)
      · rw [if_neg hc]
        exact ih bt
  exact main keys (b, tk)

theorem hazard_agrees_phaseD_step (fuel : Nat) (orig : CellBoard)
    (tbl : Nat → Move → SinglePlayerMoveResult) (tk : List Bool)
    (b : CellBoard) (idm : Nat × Move) (out : CellBoard)
    (h : CellBoard.phaseD_step fuel orig tbl tk b idm = some out) :
    hazard_agrees b out := by
  rw [CellBoard.phaseD_step] at h
  cases htbl : tbl idm.1 idm.2 with
  | dead =>
    rw [htbl] at h
    rw [Option.some.inj h]
    exact hazard_agrees_refl out
  | alive a =>
    rw [htbl] at h
    dsimp only at h
    by_cases hk : tk.getD a.id false = true
    · rw [if_pos hk] at h
      exact hazard_agrees_kill_and_remove b a.id fuel out h
    · rw [if_neg hk] at h
      rw [← Option.some.inj h]
      by_cases hts : (orig.get_cell a.old_head).is_triple_stacked_piece = true
      · rw [if_pos hts]
        refine hazard_agrees_trans ?_
          (hazard_agrees_set_cell_double_stacked _ a.old_head a.id a.new_head)
        refine hazard_agrees_trans ?_
          (hazard_agrees_set_cell_head _ a.new_head a.id a.new_tail)
        exact fun _ => rfl
      · rw [if_neg hts]
        refine hazard_agrees_trans ?_
          (hazard_agrees_set_cell_body_piece _ a.old_head a.id a.new_head)
        refine hazard_agrees_trans ?_
          (hazard_agrees_set_cell_head _ a.new_head a.id a.new_tail)
        exact fun _ => rfl

/-- C10.  Every successor produced by evaluate_moves_with_state carries
exactly the hazard counts of the predecessor on every cell: the tail
removals, head writes, body and double-stack writes and kill_and_remove all
go through the read-modify-write cell mutators, and none of them touches the
hazard count. -/
theorem C10_hazard_invariant (b : CellBoard) (moves : List (Nat × Move))
    (tbl : Nat → Move → SinglePlayerMoveResult) (fuel : Nat)
    (out : CellBoard)
    (h : b.evaluate_moves_with_state moves tbl fuel = some out) :
    ∀ j, (out.get_cell j).hazard_count = (b.get_cell j).hazard_count := by
  rw [CellBoard.evaluate_moves_with_state] at h
  cases hA : CellBoard.phaseA b moves tbl fuel with
  | none => rw [hA] at h; simp at h
  | some b1 =>
    rw [hA] at h
    rw [Option.bind_eq_bind, Option.some_bind] at h
    have hAa : hazard_agrees b b1 :=
      hazard_agrees_foldlM _
        (fun bb idm o hh => hazard_agrees_phaseA_step fuel tbl bb idm o hh)
        moves b b1 hA
    have hCa : hazard_agrees b1
        (CellBoard.phaseC b1 moves tbl
          (CellBoard.phaseB b1 moves tbl
            (List.replicate b.healths.length false))).1 :=
      hazard_agrees_phaseC b1 moves tbl _
    have hDa : hazard_agrees
        (CellBoard.phaseC b1 moves tbl
          (CellBoard.phaseB b1 moves tbl
            (List.replicate b.healths.length false))).1 out :=
      hazard_agrees_foldlM _
        (fun bb idm o hh =>
          hazard_agrees_phaseD_step fuel b tbl
            (CellBoard.phaseC b1 moves tbl
              (CellBoard.phaseB b1 moves tbl
                (List.replicate b.healths.length false))).2 bb idm o hh)
        moves _ out h
    exact hazard_agrees_trans (hazard_agrees_trans hAa hCa) hDa

/-- C10 witness: the flanking-board evaluation preserves the (zero) hazard
count of the contested cell. -/
theorem C10_hazard_invariant_witness :
    (((boardHeadTarget.evaluate_moves_with_state
        [(0, Move.right), (1, Move.left)] tblHeadTarget 100).getD
          boardHeadTarget).get_cell 12).hazard_count =
      ((boardHeadTarget.get_cell 12)).hazard_count :=
  C10_hazard_invariant boardHeadTarget [(0, Move.right), (1, Move.left)]
    tblHeadTarget 100 _ rfl 12

/-! ### C4: tail chase -/

/-- A tail pointer is only read off a head cell. -/
theorem get_tail_position_is_head (c : Cell) (i t : Nat)
    (h : c.get_tail_position i = some t) : c.is_head = true := by
  rw [Cell.get_tail_position] at h
  by_cases hh : c.is_head = true
  · exact hh
  · rw [if_neg hh] at h; exact Option.noConfusion h

/-- A plain body piece is neither a head nor stacked. -/
theorem flags_body_piece_facts (c : Cell)
    (h : c.flags = CellFlag.snakeBodyPiece) :
    c.is_head = false ∧ c.is_double_stacked_piece = false ∧
      c.is_stacked = false := by
  refine ⟨?_, ?_, ?_⟩ <;>
    simp [Cell.is_head, Cell.is_double_stacked_piece, Cell.is_stacked,
      Cell.is_triple_stacked_piece, h]

/-- An empty cell is neither a body segment, nor a head, nor double
stacked. -/
theorem flags_empty_facts (c : Cell) (h : c.flags = CellFlag.empty) :
    c.is_body_segment = false ∧ c.is_head = false ∧
      c.is_double_stacked_piece = false := by
  refine ⟨?_, ?_, ?_⟩ <;>
    simp [Cell.is_body_segment, Cell.is_head, Cell.is_snake_body_piece,
      Cell.is_double_stacked_piece, Cell.is_triple_stacked_piece, h]

/-- What an Alive first-phase result pins down about the board it came
from. -/
theorem generate_one_alive_facts (b : CellBoard) (mode : EvaluateMode)
    (sid : Nat) (m : Move) (fuel : Nat) (r : AliveMoveResult)
    (h : b.generate_one mode sid m fuel = some (.alive r)) :
    r.id = sid ∧ r.old_head = b.heads.getD sid 0 ∧
    b.old_tail_of sid = some r.old_tail ∧
    (b.get_cell r.old_head).is_head = true ∧
    r.new_health ≠ 0 ∧
    ((b.get_cell r.old_tail).is_stacked = false →
      (b.get_cell r.old_tail).get_next_index = some r.new_tail) := by
  rw [CellBoard.generate_one] at h
  by_cases hh : b.healths.getD sid 0 = 0
  · rw [if_pos hh] at h
    exact absurd (Option.some.inj h) (by intro hx; cases hx)
  · rw [if_neg hh] at h
    cases ht : b.old_tail_of sid with
    | none => simp only [ht] at h; exact Option.noConfusion h
    | some t =>
      simp only [ht] at h
      cases hnh : b.new_head_index mode sid m with
      | none =>
        simp only [hnh] at h
        exact absurd h (by intro hx; cases hx)
      | some nh =>
        simp only [hnh] at h
        cases hnk : b.neck_of sid fuel with
        | none => simp only [hnk] at h; exact Option.noConfusion h
        | some nk =>
          simp only [hnk] at h
          by_cases hne : nh = nk
          · rw [if_pos hne] at h
            exact absurd (Option.some.inj h) (by intro hx; cases hx)
          · rw [if_neg hne] at h
            cases hnt : (if (b.get_cell t).is_stacked then some t
                else (b.get_cell t).get_next_index) with
            | none => simp only [hnt] at h; exact Option.noConfusion h
            | some nt =>
              simp only [hnt] at h
              by_cases h0 : (if (b.get_cell nh).is_food = true then 100
                  else if (b.get_cell nh).is_hazard = true then
                    b.healths.getD sid 0 - 1 - b.hazard_damage
                  else b.healths.getD sid 0 - 1) = 0
              · rw [if_pos h0] at h
                exact absurd (Option.some.inj h) (by intro hx; cases hx)
              · rw [if_neg h0] at h
                injection Option.some.inj h with hr
                subst hr
                refine ⟨rfl, rfl, rfl, ?_, h0, ?_⟩
                · exact get_tail_position_is_head
                    (b.get_cell (b.heads.getD sid 0)) (b.heads.getD sid 0) t
                    (by rw [CellBoard.old_tail_of] at ht; exact ht)
                · intro hstk
                  rw [if_neg (by rw [hstk]; intro hx; cases hx)] at hnt
                  exact hnt

/-- get_cell after a raw cell write. -/
theorem get_cell_set_cell (x : CellBoard) (i : Nat) (cc : Cell) (j : Nat) :
    (x.set_cell i cc).get_cell j =
      if i = j ∧ j < x.cells.length then cc else x.get_cell j :=
  getD_set x.cells i j cc Cell.emptyCell

/-- During the tail-chase argument the contested cell c is either still the
original cell of the base board or already cleared; the agent arrays keep
their lengths. -/
def tailCellInv (b : CellBoard) (c : Nat) (x : CellBoard) : Prop :=
  x.cells.length = b.cells.length ∧ x.healths.length = b.healths.length ∧
    (x.get_cell c = b.get_cell c ∨ (x.get_cell c).flags = CellFlag.empty)

/-- After the tail owner's phase A step, the contested cell is empty. -/
def tailCellGone (b : CellBoard) (c : Nat) (x : CellBoard) : Prop :=
  x.cells.length = b.cells.length ∧ x.healths.length = b.healths.length ∧
    (x.get_cell c).flags = CellFlag.empty

theorem tailCellInv_cell_remove (b : CellBoard) (c : Nat) (x : CellBoard)
    (i : Nat) (hx : tailCellInv b c x) : tailCellInv b c (x.cell_remove i) := by
  obtain ⟨hl, hh, hc⟩ := hx
  refine ⟨by simpa [CellBoard.cell_remove, CellBoard.set_cell] using hl, hh, ?_⟩
  rw [CellBoard.cell_remove, get_cell_set_cell]
  by_cases hij : i = c ∧ c < x.cells.length
  · rw [if_pos hij]
    right
    rfl
  · rw [if_neg hij]
    exact hc

theorem tailCellGone_cell_remove (b : CellBoard) (c : Nat) (x : CellBoard)
    (i : Nat) (hx : tailCellGone b c x) : tailCellGone b c (x.cell_remove i) := by
  obtain ⟨hl, hh, hc⟩ := hx
  refine ⟨by simpa [CellBoard.cell_remove, CellBoard.set_cell] using hl, hh, ?_⟩
  rw [CellBoard.cell_remove, get_cell_set_cell]
  by_cases hij : i = c ∧ c < x.cells.length
  · rw [if_pos hij]
    rfl
  · rw [if_neg hij]
    exact hc

theorem tailCellInv_set_cell_ne (b : CellBoard) (c : Nat) (x : CellBoard)
    (i : Nat) (cc : Cell) (hne : i ≠ c) (hx : tailCellInv b c x) :
    tailCellInv b c (x.set_cell i cc) := by
  obtain ⟨hl, hh, hc⟩ := hx
  refine ⟨by simpa [CellBoard.set_cell] using hl, hh, ?_⟩
  rw [get_cell_set_cell, if_neg (by intro hx2; exact hne hx2.1)]
  exact hc

theorem tailCellGone_set_cell_ne (b : CellBoard) (c : Nat) (x : CellBoard)
    (i : Nat) (cc : Cell) (hne : i ≠ c) (hx : tailCellGone b c x) :
    tailCellGone b c (x.set_cell i cc) := by
  obtain ⟨hl, hh, hc⟩ := hx
  refine ⟨by simpa [CellBoard.set_cell] using hl, hh, ?_⟩
  rw [get_cell_set_cell, if_neg (by intro hx2; exact hne hx2.1)]
  exact hc

/-- kill only touches the agent arrays, preserving their lengths. -/
theorem tailCellInv_kill (b : CellBoard) (c : Nat) (x : CellBoard) (sid : Nat)
    (hx : tailCellInv b c x) : tailCellInv b c (x.kill sid) := by
  obtain ⟨hl, hh, hc⟩ := hx
  exact ⟨hl, by simpa [CellBoard.kill] using hh, hc⟩

theorem tailCellGone_kill (b : CellBoard) (c : Nat) (x : CellBoard) (sid : Nat)
    (hx : tailCellGone b c x) : tailCellGone b c (x.kill sid) := by
  obtain ⟨hl, hh, hc⟩ := hx
  exact ⟨hl, by simpa [CellBoard.kill] using hh, hc⟩

theorem tailCellInv_killRemoveLoop (b : CellBoard) (c : Nat) :
    ∀ (fuel : Nat) (x : CellBoard) (cur : Option Nat) (y : CellBoard),
      CellBoard.killRemoveLoop fuel x cur = some y → tailCellInv b c x →
      tailCellInv b c y := by
  intro fuel
  induction fuel with
  | zero =>
    intro x cur y h hx
    cases cur with
    | none => rw [CellBoard.killRemoveLoop] at h; rw [← Option.some.inj h]; exact hx
    | some i => simp [CellBoard.killRemoveLoop] at h
  | succ n ih =>
    intro x cur y h hx
    cases cur with
    | none => rw [CellBoard.killRemoveLoop] at h; rw [← Option.some.inj h]; exact hx
    | some i =>
      rw [CellBoard.killRemoveLoop] at h
      exact ih _ _ _ h (tailCellInv_cell_remove b c x i hx)

theorem tailCellGone_killRemoveLoop (b : CellBoard) (c : Nat) :
    ∀ (fuel : Nat) (x : CellBoard) (cur : Option Nat) (y : CellBoard),
      CellBoard.killRemoveLoop fuel x cur = some y → tailCellGone b c x →
      tailCellGone b c y := by
  intro fuel
  induction fuel with
  | zero =>
    intro x cur y h hx
    cases cur with
    | none => rw [CellBoard.killRemoveLoop] at h; rw [← Option.some.inj h]; exact hx
    | some i => simp [CellBoard.killRemoveLoop] at h
  | succ n ih =>
    intro x cur y h hx
    cases cur with
    | none => rw [CellBoard.killRemoveLoop] at h; rw [← Option.some.inj h]; exact hx
    | some i =>
      rw [CellBoard.killRemoveLoop] at h
      exact ih _ _ _ h (tailCellGone_cell_remove b c x i hx)

theorem tailCellInv_kill_and_remove (b : CellBoard) (c : Nat) (x : CellBoard)
    (sid fuel : Nat) (y : CellBoard) (h : x.kill_and_remove sid fuel = some y)
    (hx : tailCellInv b c x) : tailCellInv b c y := by
  rw [CellBoard.kill_and_remove] at h
  cases hk : CellBoard.killRemoveLoop fuel x
      ((x.get_cell (x.heads.getD sid 0)).get_tail_position
        (x.heads.getD sid 0)) with
  | none => rw [hk] at h; exact Option.noConfusion h
  | some y2 =>
    rw [hk] at h
    rw [← Option.some.inj h]
    exact tailCellInv_kill b c y2 sid
      (tailCellInv_killRemoveLoop b c fuel x _ y2 hk hx)

theorem tailCellGone_kill_and_remove (b : CellBoard) (c : Nat) (x : CellBoard)
    (sid fuel : Nat) (y : CellBoard) (h : x.kill_and_remove sid fuel = some y)
    (hx : tailCellGone b c x) : tailCellGone b c y := by
  rw [CellBoard.kill_and_remove] at h
  cases hk : CellBoard.killRemoveLoop fuel x
      ((x.get_cell (x.heads.getD sid 0)).get_tail_position
        (x.heads.getD sid 0)) with
  | none => rw [hk] at h; exact Option.noConfusion h
  | some y2 =>
    rw [hk] at h
    rw [← Option.some.inj h]
    exact tailCellGone_kill b c y2 sid
      (tailCellGone_killRemoveLoop b c fuel x _ y2 hk hx)

theorem tailCellInv_set_healths_lengths (b : CellBoard) (c : Nat)
    (x : CellBoard) (i v j w : Nat) (hx : tailCellInv b c x) :
    tailCellInv b c
      { x with healths := x.healths.set i v, lengths := x.lengths.set j w } :=
  ⟨hx.1, by simpa using hx.2.1, hx.2.2⟩

theorem tailCellGone_set_healths_lengths (b : CellBoard) (c : Nat)
    (x : CellBoard) (i v j w : Nat) (hx : tailCellGone b c x) :
    tailCellGone b c
      { x with healths := x.healths.set i v, lengths := x.lengths.set j w } :=
  ⟨hx.1, by simpa using hx.2.1, hx.2.2⟩

/-- One phase A step of a mover that neither starts at, moves onto (as a
grown tail), nor heads from the contested cell keeps the invariant. -/
theorem tailCellInv_phaseA_step (b : CellBoard) (c : Nat) (fuel : Nat)
    (tbl : Nat → Move → SinglePlayerMoveResult) (x y : CellBoard)
    (p : Nat × Move)
    (h : CellBoard.phaseA_step fuel tbl x p = some y)
    (hfacts : ∀ r, tbl p.1 p.2 = SinglePlayerMoveResult.alive r →
      r.old_head ≠ c ∧ ¬(r.ate_food = true ∧ r.new_tail = c))
    (hbase : (b.get_cell c).is_double_stacked_piece = false)
    (hx : tailCellInv b c x) : tailCellInv b c y := by
  rw [CellBoard.phaseA_step] at h
  cases htbl : tbl p.1 p.2 with
  | dead =>
    rw [htbl] at h
    exact tailCellInv_kill_and_remove b c x p.1 fuel y h hx
  | alive a =>
    rw [htbl] at h
    obtain ⟨hoh, hat⟩ := hfacts a htbl
    rw [← Option.some.inj h]
    have hx1 : tailCellInv b c
        (if (x.get_cell a.old_tail).is_double_stacked_piece then
          x.set_cell_body_piece a.old_tail a.id (x.get_cell a.old_tail).idx
        else
          (x.cell_remove a.old_tail).set_cell_head a.old_head a.id
            a.new_tail) := by
      by_cases hd : (x.get_cell a.old_tail).is_double_stacked_piece = true
      · rw [if_pos hd]
        have hot : a.old_tail ≠ c := by
          intro hcc
          rw [hcc] at hd
          rcases hx.2.2 with hsame | hemp
          · rw [hsame, hbase] at hd
            exact Bool.noConfusion hd
          · rw [(flags_empty_facts _ hemp).2.2] at hd
            exact Bool.noConfusion hd
        exact tailCellInv_set_cell_ne b c x a.old_tail _ hot hx
      · rw [if_neg hd]
        exact tailCellInv_set_cell_ne b c _ a.old_head _ hoh
          (tailCellInv_cell_remove b c x a.old_tail hx)
    by_cases hf : a.ate_food = true
    · rw [if_pos hf]
      exact tailCellInv_set_cell_ne b c _ a.new_tail _
        (fun hcc => hat ⟨hf, hcc⟩)
        (tailCellInv_set_healths_lengths b c _ a.id a.new_health a.id
          a.new_length hx1)
    · rw [if_neg hf]
      exact tailCellInv_set_healths_lengths b c _ a.id a.new_health a.id
        a.new_length hx1

/-- Once the contested cell is empty, a phase A step of such a mover keeps it
empty. -/
theorem tailCellGone_phaseA_step (b : CellBoard) (c : Nat) (fuel : Nat)
    (tbl : Nat → Move → SinglePlayerMoveResult) (x y : CellBoard)
    (p : Nat × Move)
    (h : CellBoard.phaseA_step fuel tbl x p = some y)
    (hfacts : ∀ r, tbl p.1 p.2 = SinglePlayerMoveResult.alive r →
      r.old_head ≠ c ∧ ¬(r.ate_food = true ∧ r.new_tail = c))
    (hx : tailCellGone b c x) : tailCellGone b c y := by
  rw [CellBoard.phaseA_step] at h
  cases htbl : tbl p.1 p.2 with
  | dead =>
    rw [htbl] at h
    exact tailCellGone_kill_and_remove b c x p.1 fuel y h hx
  | alive a =>
    rw [htbl] at h
    obtain ⟨hoh, hat⟩ := hfacts a htbl
    rw [← Option.some.inj h]
    have hx1 : tailCellGone b c
        (if (x.get_cell a.old_tail).is_double_stacked_piece then
          x.set_cell_body_piece a.old_tail a.id (x.get_cell a.old_tail).idx
        else
          (x.cell_remove a.old_tail).set_cell_head a.old_head a.id
            a.new_tail) := by
      by_cases hd : (x.get_cell a.old_tail).is_double_stacked_piece = true
      · rw [if_pos hd]
        have hot : a.old_tail ≠ c := by
          intro hcc
          rw [hcc] at hd
          rw [(flags_empty_facts _ hx.2.2).2.2] at hd
          exact Bool.noConfusion hd
        exact tailCellGone_set_cell_ne b c x a.old_tail _ hot hx
      · rw [if_neg hd]
        exact tailCellGone_set_cell_ne b c _ a.old_head _ hoh
          (tailCellGone_cell_remove b c x a.old_tail hx)
    by_cases hf : a.ate_food = true
    · rw [if_pos hf]
      exact tailCellGone_set_cell_ne b c _ a.new_tail _
        (fun hcc => hat ⟨hf, hcc⟩)
        (tailCellGone_set_healths_lengths b c _ a.id a.new_health a.id
          a.new_length hx1)
    · rw [if_neg hf]
      exact tailCellGone_set_healths_lengths b c _ a.id a.new_health a.id
        a.new_length hx1

/-- The phase A step of the tail owner itself empties the contested cell: its
plain (non-stacked) tail cell is removed and nothing else of the step writes
there. -/
theorem tailCellGone_phaseA_step_estab (b : CellBoard) (c : Nat) (fuel : Nat)
    (tbl : Nat → Move → SinglePlayerMoveResult) (x y : CellBoard)
    (p : Nat × Move) (rb : AliveMoveResult)
    (h : CellBoard.phaseA_step fuel tbl x p = some y)
    (htbl : tbl p.1 p.2 = SinglePlayerMoveResult.alive rb)
    (hct : rb.old_tail = c)
    (hoh : rb.old_head ≠ c)
    (hat : ¬(rb.ate_food = true ∧ rb.new_tail = c))
    (hclen : c < b.cells.length)
    (hbase : (b.get_cell c).is_double_stacked_piece = false)
    (hx : tailCellInv b c x) : tailCellGone b c y := by
  subst hct
  rw [CellBoard.phaseA_step, htbl] at h
  rw [← Option.some.inj h]
  have hd : (x.get_cell rb.old_tail).is_double_stacked_piece = false := by
    rcases hx.2.2 with hsame | hemp
    · rw [hsame]
      exact hbase
    · exact (flags_empty_facts _ hemp).2.2
  have hdn : ¬((x.get_cell rb.old_tail).is_double_stacked_piece = true) := by
    rw [hd]
    exact Bool.false_ne_true
  rw [if_neg hdn]
  have hx1 : tailCellGone b rb.old_tail
      ((x.cell_remove rb.old_tail).set_cell_head rb.old_head rb.id
        rb.new_tail) := by
    refine tailCellGone_set_cell_ne b rb.old_tail _ rb.old_head _ hoh ?_
    refine ⟨by simpa [CellBoard.cell_remove, CellBoard.set_cell] using hx.1,
      hx.2.1, ?_⟩
    rw [CellBoard.cell_remove, get_cell_set_cell,
      if_pos ⟨rfl, by rw [hx.1]; exact hclen⟩]
    rfl
  by_cases hf : rb.ate_food = true
  · rw [if_pos hf]
    exact tailCellGone_set_cell_ne b rb.old_tail _ rb.new_tail _
      (fun hcc => hat ⟨hf, hcc⟩)
      (tailCellGone_set_healths_lengths b rb.old_tail _ rb.id rb.new_health
        rb.id rb.new_length hx1)
  · rw [if_neg hf]
    exact tailCellGone_set_healths_lengths b rb.old_tail _ rb.id
      rb.new_health rb.id rb.new_length hx1

theorem tailCellInv_phaseA_fold (b : CellBoard) (c : Nat) (fuel : Nat)
    (tbl : Nat → Move → SinglePlayerMoveResult)
    (hbase : (b.get_cell c).is_double_stacked_piece = false) :
    ∀ (l : List (Nat × Move)) (x y : CellBoard),
      (∀ p ∈ l, ∀ r, tbl p.1 p.2 = SinglePlayerMoveResult.alive r →
        r.old_head ≠ c ∧ ¬(r.ate_food = true ∧ r.new_tail = c)) →
      List.foldlM (CellBoard.phaseA_step fuel tbl) x l = some y →
      tailCellInv b c x → tailCellInv b c y := by
  intro l
  induction l with
  | nil =>
    intro x y _ h hx
    rw [List.foldlM] at h
    rw [← Option.some.inj h]
    exact hx
  | cons q qs ih =>
    intro x y hl h hx
    rw [List.foldlM] at h
    cases hs : CellBoard.phaseA_step fuel tbl x q with
    | none => rw [hs] at h; exact Option.noConfusion h
    | some x1 =>
      rw [hs] at h
      exact ih x1 y (fun p hp => hl p (List.mem_cons_of_mem q hp)) h
        (tailCellInv_phaseA_step b c fuel tbl x x1 q hs
          (hl q (List.mem_cons_self q qs)) hbase hx)

theorem tailCellGone_phaseA_fold_pres (b : CellBoard) (c : Nat) (fuel : Nat)
    (tbl : Nat → Move → SinglePlayerMoveResult) :
    ∀ (l : List (Nat × Move)) (x y : CellBoard),
      (∀ p ∈ l, ∀ r, tbl p.1 p.2 = SinglePlayerMoveResult.alive r →
        r.old_head ≠ c ∧ ¬(r.ate_food = true ∧ r.new_tail = c)) →
      List.foldlM (CellBoard.phaseA_step fuel tbl) x l = some y →
      tailCellGone b c x → tailCellGone b c y := by
  intro l
  induction l with
  | nil =>
    intro x y _ h hx
    rw [List.foldlM] at h
    rw [← Option.some.inj h]
    exact hx
  | cons q qs ih =>
    intro x y hl h hx
    rw [List.foldlM] at h
    cases hs : CellBoard.phaseA_step fuel tbl x q with
    | none => rw [hs] at h; exact Option.noConfusion h
    | some x1 =>
      rw [hs] at h
      exact ih x1 y (fun p hp => hl p (List.mem_cons_of_mem q hp)) h
        (tailCellGone_phaseA_step b c fuel tbl x x1 q hs
          (hl q (List.mem_cons_self q qs)) hx)

/-- After the whole of phase A, the contested tail cell (the plain tail of a
mover whose result is Alive, which no other mover's step writes) is empty. -/
theorem tailCellGone_phaseA_fold (b : CellBoard) (c : Nat) (fuel : Nat)
    (tbl : Nat → Move → SinglePlayerMoveResult) (rb : AliveMoveResult)
    (B : Nat) (mB : Move)
    (htbl : tbl B mB = SinglePlayerMoveResult.alive rb)
    (hct : rb.old_tail = c)
    (hclen : c < b.cells.length)
    (hbase : (b.get_cell c).is_double_stacked_piece = false) :
    ∀ (l : List (Nat × Move)) (x y : CellBoard),
      (∀ p ∈ l, ∀ r, tbl p.1 p.2 = SinglePlayerMoveResult.alive r →
        r.old_head ≠ c ∧ ¬(r.ate_food = true ∧ r.new_tail = c)) →
      (B, mB) ∈ l →
      List.foldlM (CellBoard.phaseA_step fuel tbl) x l = some y →
      tailCellInv b c x → tailCellGone b c y := by
  intro l
  induction l with
  | nil =>
    intro x y _ hmem _ _
    exact absurd hmem (List.not_mem_nil (B, mB))
  | cons q qs ih =>
    intro x y hl hmem h hx
    rw [List.foldlM] at h
    cases hs : CellBoard.phaseA_step fuel tbl x q with
    | none => rw [hs] at h; exact Option.noConfusion h
    | some x1 =>
      rw [hs] at h
      by_cases hq : q = (B, mB)
      · have hob := hl q (List.mem_cons_self q qs) rb (by rw [hq]; exact htbl)
        exact tailCellGone_phaseA_fold_pres b c fuel tbl qs x1 y
          (fun p hp => hl p (List.mem_cons_of_mem q hp)) h
          (tailCellGone_phaseA_step_estab b c fuel tbl x x1 q rb hs
            (by rw [hq]; exact htbl) hct (hct ▸ hob.1) (hct ▸ hob.2) hclen
            hbase hx)
      · have hmem2 : (B, mB) ∈ qs := by
          rcases List.mem_cons.mp hmem with heq | hm
          · exact absurd heq.symm hq
          · exact hm
        exact ih x1 y (fun p hp => hl p (List.mem_cons_of_mem q hp)) hmem2 h
          (tailCellInv_phaseA_step b c fuel tbl x x1 q hs
            (hl q (List.mem_cons_self q qs)) hbase hx)

/-- The tail-removal walk of kill_and_remove never touches the health
array. -/
theorem killRemoveLoop_healths :
    ∀ (fuel : Nat) (x : CellBoard) (cur : Option Nat) (y : CellBoard),
      CellBoard.killRemoveLoop fuel x cur = some y → y.healths = x.healths := by
  intro fuel
  induction fuel with
  | zero =>
    intro x cur y h
    cases cur with
    | none => rw [CellBoard.killRemoveLoop] at h; rw [← Option.some.inj h]
    | some i => simp [CellBoard.killRemoveLoop] at h
  | succ n ih =>
    intro x cur y h
    cases cur with
    | none => rw [CellBoard.killRemoveLoop] at h; rw [← Option.some.inj h]
    | some i =>
      rw [CellBoard.killRemoveLoop] at h
      exact ih (x.cell_remove i) _ _ h

theorem kill_and_remove_healths (x : CellBoard) (sid fuel : Nat)
    (y : CellBoard) (h : x.kill_and_remove sid fuel = some y) :
    y.healths = x.healths.set sid 0 := by
  rw [CellBoard.kill_and_remove] at h
  cases hk : CellBoard.killRemoveLoop fuel x
      ((x.get_cell (x.heads.getD sid 0)).get_tail_position
        (x.heads.getD sid 0)) with
  | none => rw [hk] at h; exact Option.noConfusion h
  | some y2 =>
    rw [hk] at h
    rw [← Option.some.inj h]
    show (y2.healths.set sid 0) = x.healths.set sid 0
    rw [killRemoveLoop_healths fuel x _ y2 hk]

/-- A phase A step of a mover other than agent A leaves A's health entry and
the health array length unchanged. -/
theorem phaseA_step_healths_ne (A fuel : Nat)
    (tbl : Nat → Move → SinglePlayerMoveResult) (x y : CellBoard)
    (p : Nat × Move)
    (h : CellBoard.phaseA_step fuel tbl x p = some y)
    (hne : p.1 ≠ A)
    (hid : ∀ r, tbl p.1 p.2 = SinglePlayerMoveResult.alive r → r.id = p.1) :
    y.healths.getD A 0 = x.healths.getD A 0 ∧
      y.healths.length = x.healths.length := by
  rw [CellBoard.phaseA_step] at h
  cases htbl : tbl p.1 p.2 with
  | dead =>
    rw [htbl] at h
    have hk := kill_and_remove_healths x p.1 fuel y h
    constructor
    · rw [hk, getD_set, if_neg (fun hq => hne hq.1)]
    · rw [hk]
      simp
  | alive a =>
    rw [htbl] at h
    have hida := hid a htbl
    rw [← Option.some.inj h]
    have key : ∀ (z : CellBoard), z.healths = x.healths →
        (z.healths.set a.id a.new_health).getD A 0 = x.healths.getD A 0 ∧
          (z.healths.set a.id a.new_health).length = x.healths.length := by
      intro z hz
      rw [hz]
      constructor
      · rw [getD_set, if_neg (fun hq => hne (hida ▸ hq.1))]
      · simp
    by_cases hd : (x.get_cell a.old_tail).is_double_stacked_piece = true
    · rw [if_pos hd]
      by_cases hf : a.ate_food = true
      · rw [if_pos hf]
        exact key _ rfl
      · rw [if_neg hf]
        exact key _ rfl
    · rw [if_neg hd]
      by_cases hf : a.ate_food = true
      · rw [if_pos hf]
        exact key _ rfl
      · rw [if_neg hf]
        exact key _ rfl

/-- Mover A's own phase A step writes its new health into slot A. -/
theorem phaseA_step_healths_self (A fuel : Nat)
    (tbl : Nat → Move → SinglePlayerMoveResult) (x y : CellBoard)
    (p : Nat × Move) (a : AliveMoveResult)
    (h : CellBoard.phaseA_step fuel tbl x p = some y)
    (htbl : tbl p.1 p.2 = SinglePlayerMoveResult.alive a)
    (hida : a.id = A)
    (hAlen : A < x.healths.length) :
    y.healths.getD A 0 = a.new_health ∧
      y.healths.length = x.healths.length := by
  rw [CellBoard.phaseA_step, htbl] at h
  rw [← Option.some.inj h]
  have key : ∀ (z : CellBoard), z.healths = x.healths →
      (z.healths.set a.id a.new_health).getD A 0 = a.new_health ∧
        (z.healths.set a.id a.new_health).length = x.healths.length := by
    intro z hz
    rw [hz]
    constructor
    · rw [getD_set, if_pos ⟨hida, hAlen⟩]
    · simp
  by_cases hd : (x.get_cell a.old_tail).is_double_stacked_piece = true
  · rw [if_pos hd]
    by_cases hf : a.ate_food = true
    · rw [if_pos hf]
      exact key _ rfl
    · rw [if_neg hf]
      exact key _ rfl
  · rw [if_neg hd]
    by_cases hf : a.ate_food = true
    · rw [if_pos hf]
      exact key _ rfl
    · rw [if_neg hf]
      exact key _ rfl

/-- Folding phase A over movers that are all distinct from A keeps A's
health entry and the array length. -/
theorem phaseA_fold_healths_ne (A fuel : Nat)
    (tbl : Nat → Move → SinglePlayerMoveResult) :
    ∀ (l : List (Nat × Move)) (x y : CellBoard),
      (∀ p ∈ l, p.1 ≠ A) →
      (∀ p ∈ l, ∀ r, tbl p.1 p.2 = SinglePlayerMoveResult.alive r →
        r.id = p.1) →
      List.foldlM (CellBoard.phaseA_step fuel tbl) x l = some y →
      y.healths.getD A 0 = x.healths.getD A 0 ∧
        y.healths.length = x.healths.length := by
  intro l
  induction l with
  | nil =>
    intro x y _ _ h
    rw [List.foldlM] at h
    rw [← Option.some.inj h]
    exact ⟨rfl, rfl⟩
  | cons q qs ih =>
    intro x y hne hid h
    rw [List.foldlM] at h
    cases hs : CellBoard.phaseA_step fuel tbl x q with
    | none => rw [hs] at h; exact Option.noConfusion h
    | some x1 =>
      rw [hs] at h
      have h1 := phaseA_step_healths_ne A fuel tbl x x1 q hs
        (hne q (List.mem_cons_self q qs))
        (hid q (List.mem_cons_self q qs))
      have h2 := ih x1 y (fun p hp => hne p (List.mem_cons_of_mem q hp))
        (fun p hp => hid p (List.mem_cons_of_mem q hp)) h
      exact ⟨h2.1.trans h1.1, h2.2.trans h1.2⟩

theorem getD_replicate_false : ∀ (n j : Nat),
    (List.replicate n false).getD j false = false := by
  intro n
  induction n with
  | zero => intro j; cases j <;> rfl
  | succ m ih =>
    intro j
    cases j with
    | zero => rfl
    | succ k =>
      rw [List.replicate_succ, List.getD_cons_succ]
      exact ih k

/-- In a joint move whose agent ids are pairwise distinct, an id determines
the (id, move) pair. -/
theorem eq_of_nodup_map_fst :
    ∀ (l : List (Nat × Move)) (p q : Nat × Move),
      (l.map Prod.fst).Nodup → p ∈ l → q ∈ l → p.1 = q.1 → p = q := by
  intro l
  induction l with
  | nil => intro p q _ hp _ _; simp at hp
  | cons x t ih =>
    intro p q hn hp hq h1
    rw [List.map_cons, List.nodup_cons] at hn
    rcases List.mem_cons.mp hp with hpa | hpt
    · rcases List.mem_cons.mp hq with hqa | hqt
      · rw [hpa, hqa]
      · exfalso
        have hm : q.1 ∈ t.map Prod.fst := List.mem_map_of_mem Prod.fst hqt
        rw [← h1, hpa] at hm
        exact hn.1 hm
    · rcases List.mem_cons.mp hq with hqa | hqt
      · exfalso
        have hm : p.1 ∈ t.map Prod.fst := List.mem_map_of_mem Prod.fst hpt
        rw [h1, hqa] at hm
        exact hn.1 hm
      · exact ih p q hn.2 hpt hqt h1

theorem alive_results_mem (moves : List (Nat × Move))
    (tbl : Nat → Move → SinglePlayerMoveResult) (x : AliveMoveResult)
    (hx : x ∈ CellBoard.alive_results moves tbl) :
    ∃ p ∈ moves, tbl p.1 p.2 = SinglePlayerMoveResult.alive x := by
  rw [CellBoard.alive_results] at hx
  rcases List.mem_filterMap.mp hx with ⟨p, hp, hf⟩
  refine ⟨p, hp, ?_⟩
  cases htbl : tbl p.1 p.2 with
  | dead =>
    rw [htbl] at hf
    exact Option.noConfusion hf
  | alive a =>
    rw [htbl] at hf
    exact congrArg SinglePlayerMoveResult.alive (Option.some.inj hf)

theorem alive_results_append (l1 l2 : List (Nat × Move))
    (tbl : Nat → Move → SinglePlayerMoveResult) :
    CellBoard.alive_results (l1 ++ l2) tbl =
      CellBoard.alive_results l1 tbl ++ CellBoard.alive_results l2 tbl := by
  rw [CellBoard.alive_results, CellBoard.alive_results,
    CellBoard.alive_results, List.filterMap_append]

theorem alive_results_cons_alive (tbl : Nat → Move → SinglePlayerMoveResult)
    (q : Nat × Move) (l : List (Nat × Move)) (a : AliveMoveResult)
    (hv : tbl q.1 q.2 = SinglePlayerMoveResult.alive a) :
    CellBoard.alive_results (q :: l) tbl =
      a :: CellBoard.alive_results l tbl := by
  rw [CellBoard.alive_results, CellBoard.alive_results]
  refine List.filterMap_cons_some ?_
  show (match tbl q.1 q.2 with
    | SinglePlayerMoveResult.alive a => some a
    | SinglePlayerMoveResult.dead => none) = some a
  rw [hv]

theorem alive_results_filter_nil (c : Nat)
    (tbl : Nat → Move → SinglePlayerMoveResult) :
    ∀ (l : List (Nat × Move)),
      (∀ p ∈ l, ∀ r, tbl p.1 p.2 = SinglePlayerMoveResult.alive r →
        r.new_head ≠ c) →
      (CellBoard.alive_results l tbl).filter (fun z => z.new_head == c) =
        [] := by
  intro l
  induction l with
  | nil => intro _; rfl
  | cons q qs ih =>
    intro hl
    have hqs := ih (fun p hp => hl p (List.mem_cons_of_mem q hp))
    cases htbl : tbl q.1 q.2 with
    | dead =>
      have hcons : CellBoard.alive_results (q :: qs) tbl =
          CellBoard.alive_results qs tbl := by
        rw [CellBoard.alive_results, CellBoard.alive_results]
        refine List.filterMap_cons_none ?_
        show (match tbl q.1 q.2 with
          | SinglePlayerMoveResult.alive a => some a
          | SinglePlayerMoveResult.dead => none) = none
        rw [htbl]
      rw [hcons]
      exact hqs
    | alive a =>
      rw [alive_results_cons_alive tbl q qs a htbl, List.filter_cons]
      have hna : (a.new_head == c) = false := by
        have := hl q (List.mem_cons_self q qs) a htbl
        simp [this]
      rw [if_neg (by rw [hna]; exact Bool.false_ne_true)]
      exact hqs

theorem mark_fold_pres_ne (wid : Option Nat) :
    ∀ (group : List AliveMoveResult) (tk : List Bool) (j : Nat),
      (∀ x ∈ group, x.id ≠ j) →
      (group.foldl
        (fun tk x => if wid ≠ some x.id then tk.set x.id true else tk)
        tk).getD j false = tk.getD j false := by
  intro group
  induction group with
  | nil => intro tk j _; rfl
  | cons y ys ih =>
    intro tk j hg
    rw [List.foldl_cons]
    by_cases hw : wid ≠ some y.id
    · rw [if_pos hw]
      rw [ih _ j (fun x hx => hg x (List.mem_cons_of_mem y hx))]
      rw [getD_set, if_neg (fun hq => hg y (List.mem_cons_self y ys) hq.1)]
    · rw [if_neg hw]
      exact ih _ j (fun x hx => hg x (List.mem_cons_of_mem y hx))

/-- resolve_group never marks an agent outside the group. -/
theorem resolve_group_tk_ne (b : CellBoard) (tk : List Bool) (key j : Nat)
    (group : List AliveMoveResult) (hg : ∀ x ∈ group, x.id ≠ j) :
    (b.resolve_group tk key group).2.getD j false = tk.getD j false := by
  rw [CellBoard.resolve_group]
  exact mark_fold_pres_ne _ group tk j hg

theorem resolve_group_healths (b : CellBoard) (tk : List Bool) (key : Nat)
    (group : List AliveMoveResult) :
    (b.resolve_group tk key group).1.healths = b.healths := by
  rw [CellBoard.resolve_group]
  show (if ((b.winner_of key group).isNone &&
      !(b.on_another_snake key group)) = true then
    b.cell_remove key else b).healths = b.healths
  by_cases hcc : ((b.winner_of key group).isNone &&
      !(b.on_another_snake key group)) = true
  · rw [if_pos hcc]
    rfl
  · rw [if_neg hcc]

/-- The phase C fold never marks an agent outside every large group. -/
theorem resolve_fold_tk_ne (A : Nat) (results : List AliveMoveResult)
    (hg : ∀ k, 2 ≤ (results.filter (fun z => z.new_head == k)).length →
      ∀ x ∈ results.filter (fun z => z.new_head == k), x.id ≠ A) :
    ∀ (keys : List Nat) (bt : CellBoard × List Bool),
      ((keys.foldl
        (fun bt key =>
          if 2 ≤ (results.filter (fun z => z.new_head == key)).length then
            CellBoard.resolve_group bt.1 bt.2 key
              (results.filter (fun z => z.new_head == key))
          else bt) bt).2.getD A false) = bt.2.getD A false := by
  intro keys
  induction keys with
  | nil => intro bt; rfl
  | cons k ks ih =>
    intro bt
    rw [List.foldl_cons, ih]
    show (if 2 ≤ (results.filter (fun z => z.new_head == k)).length then
        CellBoard.resolve_group bt.1 bt.2 k
          (results.filter (fun z => z.new_head == k))
      else bt).2.getD A false = bt.2.getD A false
    by_cases h2 : 2 ≤ (results.filter (fun z => z.new_head == k)).length
    · rw [if_pos h2]
      exact resolve_group_tk_ne bt.1 bt.2 k A _ (hg k h2)
    · rw [if_neg h2]

/-- The phase C fold never touches the health array. -/
theorem resolve_fold_healths (results : List AliveMoveResult) :
    ∀ (keys : List Nat) (bt : CellBoard × List Bool),
      ((keys.foldl
        (fun bt key =>
          if 2 ≤ (results.filter (fun z => z.new_head == key)).length then
            CellBoard.resolve_group bt.1 bt.2 key
              (results.filter (fun z => z.new_head == key))
          else bt) bt).1.healths) = bt.1.healths := by
  intro keys
  induction keys with
  | nil => intro bt; rfl
  | cons k ks ih =>
    intro bt
    rw [List.foldl_cons, ih]
    show (if 2 ≤ (results.filter (fun z => z.new_head == k)).length then
        CellBoard.resolve_group bt.1 bt.2 k
          (results.filter (fun z => z.new_head == k))
      else bt).1.healths = bt.1.healths
    by_cases h2 : 2 ≤ (results.filter (fun z => z.new_head == k)).length
    · rw [if_pos h2]
      exact resolve_group_healths bt.1 bt.2 k _
    · rw [if_neg h2]

theorem phaseC_tk_ne (b1 : CellBoard) (moves : List (Nat × Move))
    (tbl : Nat → Move → SinglePlayerMoveResult) (tk : List Bool) (A : Nat)
    (hg : ∀ k,
      2 ≤ ((CellBoard.alive_results moves tbl).filter
        (fun z => z.new_head == k)).length →
      ∀ x ∈ (CellBoard.alive_results moves tbl).filter
        (fun z => z.new_head == k), x.id ≠ A) :
    (CellBoard.phaseC b1 moves tbl tk).2.getD A false = tk.getD A false :=
  resolve_fold_tk_ne A (CellBoard.alive_results moves tbl) hg _ (b1, tk)

theorem phaseC_healths (b1 : CellBoard) (moves : List (Nat × Move))
    (tbl : Nat → Move → SinglePlayerMoveResult) (tk : List Bool) :
    (CellBoard.phaseC b1 moves tbl tk).1.healths = b1.healths :=
  resolve_fold_healths (CellBoard.alive_results moves tbl) _ (b1, tk)

/-- Phase B never marks an agent that either is not a mover of the list or
whose landing cell is neither a body segment nor a head. -/
theorem phaseB_tk_ne (b1 : CellBoard) (A : Nat)
    (tbl : Nat → Move → SinglePlayerMoveResult) :
    ∀ (l : List (Nat × Move)) (tk : List Bool),
      (∀ p ∈ l, ∀ r, tbl p.1 p.2 = SinglePlayerMoveResult.alive r →
        r.id ≠ A ∨
          ((b1.get_cell r.new_head).is_body_segment ||
            (b1.get_cell r.new_head).is_head) = false) →
      tk.getD A false = false →
      (CellBoard.phaseB b1 l tbl tk).getD A false = false := by
  intro l
  induction l with
  | nil => intro tk _ htk; exact htk
  | cons q qs ih =>
    intro tk hl htk
    rw [CellBoard.phaseB, List.foldl_cons]
    have hstep : ((match tbl q.1 q.2 with
        | SinglePlayerMoveResult.alive a =>
          if (b1.get_cell a.new_head).is_body_segment ||
              (b1.get_cell a.new_head).is_head then tk.set a.id true
          else tk
        | SinglePlayerMoveResult.dead => tk) : List Bool).getD A false =
        false := by
      cases htbl : tbl q.1 q.2 with
      | dead => exact htk
      | alive a =>
        show (if (b1.get_cell a.new_head).is_body_segment ||
            (b1.get_cell a.new_head).is_head then tk.set a.id true
          else tk).getD A false = false
        rcases hl q (List.mem_cons_self q qs) a htbl with hida | hcond
        · by_cases hcnd : ((b1.get_cell a.new_head).is_body_segment ||
              (b1.get_cell a.new_head).is_head) = true
          · rw [if_pos hcnd, getD_set, if_neg (fun hq => hida hq.1)]
            exact htk
          · rw [if_neg hcnd]
            exact htk
        · rw [if_neg (by rw [hcond]; exact Bool.false_ne_true)]
          exact htk
    exact ih _ (fun p hp => hl p (List.mem_cons_of_mem q hp)) hstep

/-- A phase D step of a mover that is not A, or that is not marked, leaves
A's health entry unchanged. -/
theorem phaseD_step_healths (fuel : Nat) (orig : CellBoard)
    (tbl : Nat → Move → SinglePlayerMoveResult) (tk2 : List Bool) (A : Nat)
    (x y : CellBoard) (p : Nat × Move)
    (h : CellBoard.phaseD_step fuel orig tbl tk2 x p = some y)
    (hp : ∀ r, tbl p.1 p.2 = SinglePlayerMoveResult.alive r →
      r.id ≠ A ∨ tk2.getD r.id false = false) :
    y.healths.getD A 0 = x.healths.getD A 0 := by
  rw [CellBoard.phaseD_step] at h
  cases htbl : tbl p.1 p.2 with
  | dead =>
    rw [htbl] at h
    rw [← Option.some.inj h]
  | alive a =>
    rw [htbl] at h
    dsimp only at h
    by_cases hk : tk2.getD a.id false = true
    · rw [if_pos hk] at h
      have hkk := kill_and_remove_healths x a.id fuel y h
      rcases hp a htbl with hne | hfa
      · rw [hkk, getD_set, if_neg (fun hq => hne hq.1)]
      · rw [hfa] at hk
        exact absurd hk Bool.false_ne_true
    · rw [if_neg hk] at h
      rw [← Option.some.inj h]
      by_cases ht : (orig.get_cell a.old_head).is_triple_stacked_piece = true
      · rw [if_pos ht]
        rfl
      · rw [if_neg ht]
        rfl

theorem phaseD_fold_healths (fuel : Nat) (orig : CellBoard)
    (tbl : Nat → Move → SinglePlayerMoveResult) (tk2 : List Bool) (A : Nat) :
    ∀ (l : List (Nat × Move)) (x y : CellBoard),
      (∀ p ∈ l, ∀ r, tbl p.1 p.2 = SinglePlayerMoveResult.alive r →
        r.id ≠ A ∨ tk2.getD r.id false = false) →
      List.foldlM (CellBoard.phaseD_step fuel orig tbl tk2) x l = some y →
      y.healths.getD A 0 = x.healths.getD A 0 := by
  intro l
  induction l with
  | nil =>
    intro x y _ h
    rw [List.foldlM] at h
    rw [← Option.some.inj h]
  | cons q qs ih =>
    intro x y hl h
    rw [List.foldlM] at h
    cases hs : CellBoard.phaseD_step fuel orig tbl tk2 x q with
    | none => rw [hs] at h; exact Option.noConfusion h
    | some x1 =>
      rw [hs] at h
      rw [ih x1 y (fun p hp => hl p (List.mem_cons_of_mem q hp)) h]
      exact phaseD_step_healths fuel orig tbl tk2 A x x1 q hs
        (hl q (List.mem_cons_self q qs))

theorem not_mem_of_nodup_append {x : Nat} {s t : List Nat}
    (h : (s ++ x :: t).Nodup) : x ∉ s ∧ x ∉ t := by
  simp [List.nodup_append] at h
  exact ⟨h.2.2.1, h.2.1.1⟩

/-- C4: tail chase is legal.  For two distinct agents A and B whose
first-phase results are both Alive and both applied in the same joint move,
if A's new head lands exactly on the cell that held B's tail in the
predecessor board, that tail cell is a plain (unstacked) body piece, and no
other collision involves A's new head (no other mover lands on, starts its
head at, or re-grows its tail onto that cell, and A does not grow onto it
itself), then A is never marked to_kill and survives in the successor with
its computed (nonzero) health: B's tail vacates during phase A, before any
collision is checked. -/
theorem C4_tail_chase (b : CellBoard) (mode : EvaluateMode)
    (moves : List (Nat × Move)) (tbl : Nat → Move → SinglePlayerMoveResult)
    (fuel : Nat) (A B : Nat) (mA mB : Move) (a rb : AliveMoveResult)
    (out : CellBoard)
    (_hAB : A ≠ B)
    (hnodup : (moves.map Prod.fst).Nodup)
    (hAmem : (A, mA) ∈ moves) (hBmem : (B, mB) ∈ moves)
    (htblA : tbl A mA = SinglePlayerMoveResult.alive a)
    (htblB : tbl B mB = SinglePlayerMoveResult.alive rb)
    (hgen : ∀ p ∈ moves, ∀ r, tbl p.1 p.2 = SinglePlayerMoveResult.alive r →
      b.generate_one mode p.1 p.2 fuel = some (SinglePlayerMoveResult.alive r))
    (hc : a.new_head = rb.old_tail)
    (hplain : (b.get_cell rb.old_tail).flags = CellFlag.snakeBodyPiece)
    (hclen : rb.old_tail < b.cells.length)
    (hAlen : A < b.healths.length)
    (hnocol : ∀ p ∈ moves, p ≠ (A, mA) →
      ∀ r, tbl p.1 p.2 = SinglePlayerMoveResult.alive r →
        r.new_head ≠ a.new_head ∧
          ¬(r.ate_food = true ∧ r.new_tail = a.new_head))
    (hself : ¬(a.ate_food = true ∧ a.new_tail = a.new_head))
    (hout : b.evaluate_moves_with_state moves tbl fuel = some out) :
    (∀ b1, CellBoard.phaseA b moves tbl fuel = some b1 →
      (CellBoard.phaseC b1 moves tbl
        (CellBoard.phaseB b1 moves tbl
          (List.replicate b.healths.length false))).2.getD A false = false) ∧
    out.healths.getD A 0 = a.new_health ∧ out.healths.getD A 0 ≠ 0 := by
  have hfactsA := generate_one_alive_facts b mode A mA fuel a
    (hgen (A, mA) hAmem a htblA)
  have hidA : a.id = A := hfactsA.1
  have hnhA : a.new_health ≠ 0 := hfactsA.2.2.2.2.1
  have hheadc : (b.get_cell rb.old_tail).is_head = false :=
    (flags_body_piece_facts _ hplain).1
  have hdc : (b.get_cell rb.old_tail).is_double_stacked_piece = false :=
    (flags_body_piece_facts _ hplain).2.1
  have hid : ∀ p ∈ moves, ∀ r,
      tbl p.1 p.2 = SinglePlayerMoveResult.alive r → r.id = p.1 :=
    fun p hp r hr => (generate_one_alive_facts b mode p.1 p.2 fuel r
      (hgen p hp r hr)).1
  have hra : ∀ p : Nat × Move, p = (A, mA) →
      ∀ r, tbl p.1 p.2 = SinglePlayerMoveResult.alive r → r = a := by
    intro p hpe r hr
    subst hpe
    exact (SinglePlayerMoveResult.alive.inj (htblA.symm.trans hr)).symm
  have HL : ∀ p ∈ moves, ∀ r,
      tbl p.1 p.2 = SinglePlayerMoveResult.alive r →
      r.old_head ≠ rb.old_tail ∧
        ¬(r.ate_food = true ∧ r.new_tail = rb.old_tail) := by
    intro p hp r hr
    have hfr := generate_one_alive_facts b mode p.1 p.2 fuel r
      (hgen p hp r hr)
    constructor
    · intro hcc
      have hhr := hfr.2.2.2.1
      rw [hcc, hheadc] at hhr
      exact Bool.noConfusion hhr
    · by_cases hpA : p = (A, mA)
      · rw [hra p hpA r hr, ← hc]
        exact hself
      · rw [← hc]
        exact (hnocol p hp hpA r hr).2
  rw [CellBoard.evaluate_moves_with_state] at hout
  cases hA1 : CellBoard.phaseA b moves tbl fuel with
  | none =>
    rw [hA1] at hout
    exact Option.noConfusion hout
  | some b1 =>
    rw [hA1] at hout
    have hD : List.foldlM
        (CellBoard.phaseD_step fuel b tbl
          (CellBoard.phaseC b1 moves tbl
            (CellBoard.phaseB b1 moves tbl
              (List.replicate b.healths.length false))).2)
        (CellBoard.phaseC b1 moves tbl
          (CellBoard.phaseB b1 moves tbl
            (List.replicate b.healths.length false))).1
        moves = some out := hout
    have hA1' : List.foldlM (CellBoard.phaseA_step fuel tbl) b moves =
        some b1 := hA1
    have hGone : tailCellGone b rb.old_tail b1 :=
      tailCellGone_phaseA_fold b rb.old_tail fuel tbl rb B mB htblB rfl hclen
        hdc moves b b1 HL hBmem hA1' ⟨rfl, rfl, Or.inl rfl⟩
    obtain ⟨l1, l2, hsplit⟩ := List.append_of_mem hAmem
    have hnn : A ∉ l1.map Prod.fst ∧ A ∉ l2.map Prod.fst := by
      have hnodup2 := hnodup
      rw [hsplit, List.map_append, List.map_cons] at hnodup2
      exact not_mem_of_nodup_append hnodup2
    have hne1 : ∀ p ∈ l1, p.1 ≠ A := by
      intro p hp hq
      exact hnn.1 (hq ▸ List.mem_map_of_mem Prod.fst hp)
    have hne2 : ∀ p ∈ l2, p.1 ≠ A := by
      intro p hp hq
      exact hnn.2 (hq ▸ List.mem_map_of_mem Prod.fst hp)
    have hmem1 : ∀ p ∈ l1, p ∈ moves := by
      intro p hp
      rw [hsplit]
      exact List.mem_append_left _ hp
    have hmem2 : ∀ p ∈ l2, p ∈ moves := by
      intro p hp
      rw [hsplit]
      exact List.mem_append_right _ (List.mem_cons_of_mem _ hp)
    have hne1' : ∀ p ∈ l1, p ≠ (A, mA) :=
      fun p hp he => hne1 p hp (congrArg Prod.fst he)
    have hne2' : ∀ p ∈ l2, p ≠ (A, mA) :=
      fun p hp he => hne2 p hp (congrArg Prod.fst he)
    have hA1s := hA1'
    rw [hsplit, List.foldlM_append] at hA1s
    cases h1 : List.foldlM (CellBoard.phaseA_step fuel tbl) b l1 with
    | none =>
      rw [h1] at hA1s
      exact Option.noConfusion hA1s
    | some x1 =>
      rw [h1] at hA1s
      have hA2 : List.foldlM (CellBoard.phaseA_step fuel tbl) x1
          ((A, mA) :: l2) = some b1 := hA1s
      rw [List.foldlM] at hA2
      cases h2 : CellBoard.phaseA_step fuel tbl x1 (A, mA) with
      | none =>
        rw [h2] at hA2
        exact Option.noConfusion hA2
      | some x2 =>
        rw [h2] at hA2
        have hA3 : List.foldlM (CellBoard.phaseA_step fuel tbl) x2 l2 =
            some b1 := hA2
        have hh1 := phaseA_fold_healths_ne A fuel tbl l1 b x1 hne1
          (fun p hp => hid p (hmem1 p hp)) h1
        have hAlen1 : A < x1.healths.length := by
          rw [hh1.2]
          exact hAlen
        have hh2 := phaseA_step_healths_self A fuel tbl x1 x2 (A, mA) a h2
          htblA hidA hAlen1
        have hh3 := phaseA_fold_healths_ne A fuel tbl l2 x2 b1 hne2
          (fun p hp => hid p (hmem2 p hp)) hA3
        have hb1A : b1.healths.getD A 0 = a.new_health :=
          hh3.1.trans hh2.1
        have hfn1 : (CellBoard.alive_results l1 tbl).filter
            (fun z => z.new_head == rb.old_tail) = [] := by
          refine alive_results_filter_nil rb.old_tail tbl l1 ?_
          intro p hp r hr
          rw [← hc]
          exact (hnocol p (hmem1 p hp) (hne1' p hp) r hr).1
        have hfn2 : (CellBoard.alive_results l2 tbl).filter
            (fun z => z.new_head == rb.old_tail) = [] := by
          refine alive_results_filter_nil rb.old_tail tbl l2 ?_
          intro p hp r hr
          rw [← hc]
          exact (hnocol p (hmem2 p hp) (hne2' p hp) r hr).1
        have hARc : CellBoard.alive_results ((A, mA) :: l2) tbl =
            a :: CellBoard.alive_results l2 tbl :=
          alive_results_cons_alive tbl (A, mA) l2 a htblA
        have hfa : (a.new_head == rb.old_tail) = true := by
          rw [hc]
          exact beq_self_eq_true rb.old_tail
        have hgrp_eq : (CellBoard.alive_results moves tbl).filter
            (fun z => z.new_head == rb.old_tail) = [a] := by
          rw [hsplit, alive_results_append, List.filter_append, hfn1, hARc,
            List.filter_cons, if_pos hfa, hfn2]
          rfl
        have htk0 : (List.replicate b.healths.length false).getD A false =
            false := getD_replicate_false _ A
        have hBfacts : ∀ p ∈ moves, ∀ r,
            tbl p.1 p.2 = SinglePlayerMoveResult.alive r →
            r.id ≠ A ∨
              ((b1.get_cell r.new_head).is_body_segment ||
                (b1.get_cell r.new_head).is_head) = false := by
          intro p hp r hr
          by_cases hpA : p = (A, mA)
          · right
            rw [hra p hpA r hr, hc]
            rw [(flags_empty_facts _ hGone.2.2).1,
              (flags_empty_facts _ hGone.2.2).2.1]
            rfl
          · left
            intro hq
            have hpa : p.1 = A := (hid p hp r hr).symm.trans hq
            exact hpA (eq_of_nodup_map_fst moves p (A, mA) hnodup hp hAmem hpa)
        have htk1 : (CellBoard.phaseB b1 moves tbl
            (List.replicate b.healths.length false)).getD A false = false :=
          phaseB_tk_ne b1 A tbl moves _ hBfacts htk0
        have hgrp : ∀ k,
            2 ≤ ((CellBoard.alive_results moves tbl).filter
              (fun z => z.new_head == k)).length →
            ∀ x ∈ (CellBoard.alive_results moves tbl).filter
              (fun z => z.new_head == k), x.id ≠ A := by
          intro k h2g x hx hidx
          have hxf := List.mem_filter.mp hx
          obtain ⟨p, hp, hpr⟩ := alive_results_mem moves tbl x hxf.1
          have hpa : p.1 = A := (hid p hp x hpr).symm.trans hidx
          have hpA : p = (A, mA) :=
            eq_of_nodup_map_fst moves p (A, mA) hnodup hp hAmem hpa
          have hxa : x = a := hra p hpA x hpr
          have hk : a.new_head = k := by
            have hbq := hxf.2
            rw [hxa] at hbq
            exact beq_iff_eq.mp hbq
          rw [← hk, hc, hgrp_eq] at h2g
          simp at h2g
        have hTK2 : (CellBoard.phaseC b1 moves tbl
            (CellBoard.phaseB b1 moves tbl
              (List.replicate b.healths.length false))).2.getD A false =
            false :=
          (phaseC_tk_ne b1 moves tbl _ A hgrp).trans htk1
        have hDfacts : ∀ p ∈ moves, ∀ r,
            tbl p.1 p.2 = SinglePlayerMoveResult.alive r →
            r.id ≠ A ∨
              ((CellBoard.phaseC b1 moves tbl
                (CellBoard.phaseB b1 moves tbl
                  (List.replicate b.healths.length false))).2.getD r.id
                false) = false := by
          intro p hp r hr
          by_cases hpA : p = (A, mA)
          · right
            rw [hra p hpA r hr, hidA]
            exact hTK2
          · left
            intro hq
            have hpa : p.1 = A := (hid p hp r hr).symm.trans hq
            exact hpA (eq_of_nodup_map_fst moves p (A, mA) hnodup hp hAmem hpa)
        have hDh := phaseD_fold_healths fuel b tbl _ A moves _ out hDfacts hD
        have hCh : (CellBoard.phaseC b1 moves tbl
            (CellBoard.phaseB b1 moves tbl
              (List.replicate b.healths.length false))).1.healths =
            b1.healths := phaseC_healths b1 moves tbl _
        refine ⟨?_, ?_, ?_⟩
        · intro b1' hb1'
          rw [← Option.some.inj hb1']
          exact hTK2
        · rw [hDh, hCh]
          exact hb1A
        · rw [hDh, hCh, hb1A]
          exact hnhA

/-- Tail-chase witness: snake 0 (head (1,2), tail (0,2)) chases snake 1
(head (3,2), tail (2,2)) on a 5x5 board; both move right. -/
def cellsTailChase : List Cell :=
  (List.range 25).map (fun i =>
    if i = 10 then Cell.make_body_piece 0 11
    else if i = 11 then Cell.make_snake_head 0 10
    else if i = 12 then Cell.make_body_piece 1 13
    else if i = 13 then Cell.make_snake_head 1 12
    else Cell.emptyCell)

def boardTailChase : CellBoard :=
  { hazard_damage := 15
    cells := cellsTailChase
    healths := [50, 50]
    heads := [11, 13]
    lengths := [2, 2]
    width := 5
    height := 5 }

def resA : AliveMoveResult := ⟨0, 11, 12, 10, 11, 49, false, 2⟩

def resB : AliveMoveResult := ⟨1, 13, 14, 12, 13, 49, false, 2⟩

def tblTailChase : Nat → Move → SinglePlayerMoveResult := fun s m =>
  match s, m with
  | 0, Move.right => SinglePlayerMoveResult.alive resA
  | 1, Move.right => SinglePlayerMoveResult.alive resB
  | _, _ => SinglePlayerMoveResult.dead

def movesTailChase : List (Nat × Move) := [(0, Move.right), (1, Move.right)]

/-- The successor board of the tail chase: both snakes advanced one cell to
the right, health 49 each. -/
def cellsTailChaseOut : List Cell :=
  (List.range 25).map (fun i =>
    if i = 11 then Cell.make_body_piece 0 12
    else if i = 12 then Cell.make_snake_head 0 11
    else if i = 13 then Cell.make_body_piece 1 14
    else if i = 14 then Cell.make_snake_head 1 13
    else Cell.emptyCell)

def outTailChase : CellBoard :=
  { hazard_damage := 15
    cells := cellsTailChaseOut
    healths := [49, 49]
    heads := [12, 14]
    lengths := [2, 2]
    width := 5
    height := 5 }

theorem C4_tail_chase_witness :
    resA.new_head = resB.old_tail ∧
    ((∀ b1, CellBoard.phaseA boardTailChase movesTailChase tblTailChase 100 =
        some b1 →
      (CellBoard.phaseC b1 movesTailChase tblTailChase
        (CellBoard.phaseB b1 movesTailChase tblTailChase
          (List.replicate boardTailChase.healths.length false))).2.getD 0
        false = false) ∧
    outTailChase.healths.getD 0 0 = resA.new_health ∧
    outTailChase.healths.getD 0 0 ≠ 0) :=
  ⟨rfl,
   C4_tail_chase boardTailChase EvaluateMode.standard movesTailChase
     tblTailChase 100 0 1 Move.right Move.right resA resB outTailChase
     (by decide)
     (by decide)
     (List.mem_cons_self _ _)
     (List.mem_cons_of_mem _ (List.mem_cons_self _ _))
     rfl
     rfl
     (by
       intro p hp r hr
       rcases List.mem_cons.mp hp with h0 | hp2
       · subst h0
         rw [← SinglePlayerMoveResult.alive.inj hr]
         rfl
       · rcases List.mem_cons.mp hp2 with h1 | hp3
         · subst h1
           rw [← SinglePlayerMoveResult.alive.inj hr]
           rfl
         · simp at hp3)
     rfl
     rfl
     (by decide)
     (by decide)
     (by
       intro p hp hne r hr
       rcases List.mem_cons.mp hp with h0 | hp2
       · exact absurd h0 hne
       · rcases List.mem_cons.mp hp2 with h1 | hp3
         · subst h1
           rw [← SinglePlayerMoveResult.alive.inj hr]
           exact ⟨by decide, by decide⟩
         · simp at hp3)
     (by decide)
     rfl⟩

end BattlesnakeGT
